import Mathlib

/-!
# MPid: the floating-point PID controller `Pid::PidDbl` (src/Pid.cpp, src/include/Pid.hpp)

Shallow embedding of the class `PidDbl` and of its member functions.

* A controller object is a record of its data members; every member function is a
  function from the object before the call (and the arguments) to the object after it.
* `double` is idealised as an arbitrary linearly ordered field `K` (exact arithmetic):
  the theorems hold for the reals, and the definitions run on the rationals.
  Division by zero, infinities, NaN and rounding are not modelled, so statements that
  involve a division carry the hypothesis that the divisor is not zero.
* `uint32_t numTimesRan` is a natural number, incremented modulo `2 ^ 32`.
* The character buffer `debugBuff` and the text printed by `PrintDebug` are left out.
* Where a parameter of a member function has the name of a data member, the parameter
  hides the member inside the body (C++ scoping); the embedding keeps the parameter and
  the member apart in the same way.
-/

set_option linter.unusedVariables false

namespace Pid

/-- Enumerates the controller direction modes (`PidDataBase::ctrlDir_t`). -/
inductive ctrlDir_t where
  | PID_DIRECT
  | PID_REVERSE
  deriving DecidableEq, Repr

/-- Output mode, non-accumulating or accumulating (`PidDataBase::outputMode_t`). -/
inductive outputMode_t where
  | DONT_ACCUMULATE_OUTPUT
  | ACCUMULATE_OUTPUT
  deriving DecidableEq, Repr

open ctrlDir_t outputMode_t

/-- Data members of `PidDbl` (with those inherited from `PidDataBase`). -/
structure PidDbl (K : Type) where
  controllerDir : ctrlDir_t
  outputMode : outputMode_t
  setPoint : K
  output : K
  zKp : K
  zKi : K
  zKd : K
  actualKp : K
  actualKi : K
  actualKd : K
  prevInput : K
  inputChange : K
  error : K
  prevOutput : K
  samplePeriodMs : K
  pTerm : K
  iTerm : K
  dTerm : K
  outMin : K
  outMax : K
  numTimesRan : Nat

variable {K : Type} [LinearOrderedField K]

/-- Member function `PidDbl::SetOutputLimits(double min, double max)`, Pid.cpp 325-332. -/
def SetOutputLimits (self : PidDbl K) (min max : K) : PidDbl K :=
  if min ≥ max then
    self
  else
    let self : PidDbl K := { self with outMin := min }
    let self : PidDbl K := { self with outMax := max }
    self

/-- Member function `PidDbl::SetControllerDirection(ctrlDir_t controllerDir)`, Pid.cpp 348-358.
Inside the body `controllerDir` is the parameter: the test compares the parameter
with itself, and the last statement assigns the parameter to itself, so the member
`controllerDir` of the object is not written. -/
def SetControllerDirection (self : PidDbl K) (controllerDir : ctrlDir_t) : PidDbl K :=
  let self : PidDbl K :=
    if controllerDir ≠ controllerDir then
      let self : PidDbl K := { self with zKp := 0 - self.zKp }
      let self : PidDbl K := { self with zKi := 0 - self.zKi }
      let self : PidDbl K := { self with zKd := 0 - self.zKd }
      self
    else
      self
  let controllerDir := controllerDir
  self

/-- Member function `PidDbl::SetTunings(double kp, double ki, double kd)`, Pid.cpp 236-270
(the debug print is left out). Here `controllerDir` and `samplePeriodMs` are the
members of the object. -/
def SetTunings (self : PidDbl K) (kp ki kd : K) : PidDbl K :=
  if kp < 0 ∨ ki < 0 ∨ kd < 0 then
    self
  else
    let self : PidDbl K := { self with actualKp := kp }
    let self : PidDbl K := { self with actualKi := ki }
    let self : PidDbl K := { self with actualKd := kd }
    let self : PidDbl K := { self with zKp := kp }
    let self : PidDbl K := { self with zKi := ki * (self.samplePeriodMs / 1000) }
    let self : PidDbl K := { self with zKd := kd / (self.samplePeriodMs / 1000) }
    if self.controllerDir = PID_REVERSE then
      let self : PidDbl K := { self with zKp := 0 - self.zKp }
      let self : PidDbl K := { self with zKi := 0 - self.zKi }
      let self : PidDbl K := { self with zKd := 0 - self.zKd }
      self
    else
      self

/-- Member function `PidDbl::SetSamplePeriod(uint32_t newSamplePeriodMs)`, Pid.cpp 302-312. -/
def SetSamplePeriod (self : PidDbl K) (newSamplePeriodMs : Nat) : PidDbl K :=
  if newSamplePeriodMs > 0 then
    let ratio : K := (newSamplePeriodMs : K) / self.samplePeriodMs
    let self : PidDbl K := { self with zKi := self.zKi * ratio }
    let self : PidDbl K := { self with zKd := self.zKd / ratio }
    let self : PidDbl K := { self with samplePeriodMs := (newSamplePeriodMs : K) }
    self
  else
    self

/-- Member function `PidDbl::Init`, Pid.cpp 78-101. The parameters `controllerDir`, `outputMode`,
`samplePeriodMs` and `setPoint` hide the members of the same name:
`this->samplePeriodMs = samplePeriodMs` writes the member, while
`outputMode = outputMode` and `setPoint = setPoint` assign a parameter to itself.
The member `numTimesRan` is not mentioned in the body. -/
def Init (self : PidDbl K) (kp ki kd : K) (controllerDir : ctrlDir_t)
    (outputMode : outputMode_t) (samplePeriodMs minOutput maxOutput setPoint : K) :
    PidDbl K :=
  let self : PidDbl K := SetOutputLimits self minOutput maxOutput
  let self : PidDbl K := { self with samplePeriodMs := samplePeriodMs }
  let self : PidDbl K := SetControllerDirection self controllerDir
  let outputMode := outputMode
  let self : PidDbl K := SetTunings self kp ki kd
  let setPoint := setPoint
  let self : PidDbl K := { self with prevInput := 0 }
  let self : PidDbl K := { self with prevOutput := 0 }
  let self : PidDbl K := { self with pTerm := 0 }
  let self : PidDbl K := { self with iTerm := 0 }
  let self : PidDbl K := { self with dTerm := 0 }
  self

/-- Member function `PidDbl::Run(double input)`, Pid.cpp 146-195.
The last test is written `numTimesRan < 2^32-1` in the source; in C++ `^` is the
bitwise exclusive or and binds weaker than `<` and `-`, so the condition is
`((numTimesRan < 2) ^ (32 - 1)) != 0`. -/
def Run (self : PidDbl K) (input : K) : PidDbl K :=
  let self : PidDbl K := { self with error := self.setPoint - input }
  let self : PidDbl K := { self with iTerm := self.iTerm + self.zKi * self.error }
  let self : PidDbl K :=
    if self.iTerm > self.outMax then { self with iTerm := self.outMax }
    else if self.iTerm < self.outMin then { self with iTerm := self.outMin }
    else self
  let self : PidDbl K :=
    if self.numTimesRan > 0 then
      let self : PidDbl K := { self with inputChange := input - self.prevInput }
      let self : PidDbl K := { self with dTerm := -self.zKd * self.inputChange }
      self
    else
      self
  let self : PidDbl K :=
    if self.outputMode = DONT_ACCUMULATE_OUTPUT then
      { self with output := self.zKp * self.error + self.iTerm + self.dTerm }
    else if self.outputMode = ACCUMULATE_OUTPUT then
      { self with output := self.prevOutput + self.zKp * self.error + self.iTerm + self.dTerm }
    else
      self
  let self : PidDbl K :=
    if self.output > self.outMax then { self with output := self.outMax }
    else if self.output < self.outMin then { self with output := self.outMin }
    else self
  let self : PidDbl K := { self with prevInput := input }
  let self : PidDbl K := { self with prevOutput := self.output }
  if Nat.xor (if self.numTimesRan < 2 then (1 : Nat) else 0) (32 - 1) ≠ 0 then
    { self with numTimesRan := (self.numTimesRan + 1) % 2 ^ 32 }
  else
    self

/-- Member function `PidDbl::GetKp`. -/
def GetKp (self : PidDbl K) : K := self.actualKp

/-- Member function `PidDbl::GetKi`. -/
def GetKi (self : PidDbl K) : K := self.actualKi

/-- Member function `PidDbl::GetKd`. -/
def GetKd (self : PidDbl K) : K := self.actualKd

/-- Member function `PidDbl::GetZp`. -/
def GetZp (self : PidDbl K) : K := self.zKp

/-- Member function `PidDbl::GetZi`. -/
def GetZi (self : PidDbl K) : K := self.zKi

/-- Member function `PidDbl::GetZd`. -/
def GetZd (self : PidDbl K) : K := self.zKd

/-- A finite sequence of `Run` calls, one per input, oldest first. -/
def RunSeq (self : PidDbl K) (inputs : List K) : PidDbl K :=
  inputs.foldl Run self

/-- Specification side: the value `x` limited to the interval `[lo, hi]`. -/
def clamp (x lo hi : K) : K := max lo (min x hi)

/-! ## Auxiliary definitions: the values computed by `Run` -/

/-- The limiting `if (x > hi) x = hi; else if (x < lo) x = lo;` that `Run` applies to
`iTerm` and to `output`, as a function of the value. -/
def limited (x lo hi : K) : K :=
  if x > hi then hi else if x < lo then lo else x

/-- The integral term after `Run`. -/
def nextITerm (self : PidDbl K) (input : K) : K :=
  limited (self.iTerm + self.zKi * (self.setPoint - input)) self.outMin self.outMax

/-- The input change after `Run`. -/
def nextInputChange (self : PidDbl K) (input : K) : K :=
  if self.numTimesRan > 0 then input - self.prevInput else self.inputChange

/-- The derivative term after `Run`. -/
def nextDTerm (self : PidDbl K) (input : K) : K :=
  if self.numTimesRan > 0 then -self.zKd * (input - self.prevInput) else self.dTerm

/-- The output of `Run` before it is limited. -/
def rawOutput (self : PidDbl K) (input : K) : K :=
  match self.outputMode with
  | DONT_ACCUMULATE_OUTPUT =>
      self.zKp * (self.setPoint - input) + nextITerm self input + nextDTerm self input
  | ACCUMULATE_OUTPUT =>
      self.prevOutput + self.zKp * (self.setPoint - input) + nextITerm self input
        + nextDTerm self input

/-- The output after `Run`. -/
def nextOutput (self : PidDbl K) (input : K) : K :=
  limited (rawOutput self input) self.outMin self.outMax

/-- A controller over the rationals used to exercise the theorems:
direct, non-accumulating, all gains 1 at a sample period of 1000 ms,
limits `-100 .. 100`, set-point 10, already run once. -/
def sampleDirect : PidDbl ℚ :=
  { controllerDir := PID_DIRECT, outputMode := DONT_ACCUMULATE_OUTPUT,
    setPoint := 10, output := 0, zKp := 1, zKi := 1, zKd := 1,
    actualKp := 1, actualKi := 1, actualKd := 1,
    prevInput := 0, inputChange := 0, error := 0, prevOutput := 0,
    samplePeriodMs := 1000, pTerm := 0, iTerm := 0, dTerm := 0,
    outMin := -100, outMax := 100, numTimesRan := 1 }

/-- The same controller in accumulating mode, not yet run, with a stale derivative term. -/
def sampleFresh : PidDbl ℚ :=
  { sampleDirect with outputMode := ACCUMULATE_OUTPUT, numTimesRan := 0, dTerm := 7,
                      prevOutput := 3 }

/-- A reverse-acting controller: the scaled gains are the negated actual gains. -/
def sampleReverse : PidDbl ℚ :=
  { sampleDirect with controllerDir := PID_REVERSE, zKp := -1, zKi := -1, zKd := -1 }

/-- The sample controller at a sample period of 100 ms: gains 1 scaled for 0.1 s. -/
def sample100 : PidDbl ℚ :=
  { sampleDirect with samplePeriodMs := 100, zKi := 1 / 10, zKd := 10 }

/-- Specification side: the sign of the scaled gains, `-1` when the stored direction is
`PID_REVERSE` and `+1` otherwise. -/
def dirSign (d : ctrlDir_t) : K := if d = PID_REVERSE then -1 else 1

/-- Specification side: the scaled gains are the actual gains scaled by the sample period
in seconds and signed by the stored direction. -/
def Consistent (s : PidDbl K) : Prop :=
  0 < s.samplePeriodMs ∧
  s.zKp = dirSign s.controllerDir * s.actualKp ∧
  s.zKi = dirSign s.controllerDir * s.actualKi * (s.samplePeriodMs / 1000) ∧
  s.zKd = dirSign s.controllerDir * s.actualKd / (s.samplePeriodMs / 1000)

instance instDecidableConsistent (s : PidDbl K) : Decidable (Consistent s) := by
  unfold Consistent
  infer_instance

/-- Representation invariant of the private actual gains: they are written only by an
accepted `SetTunings` (Pid.cpp 241-243, after the guard at 238-239), hence never negative
in an object that starts zero-initialised. -/
def ActualGainsNonneg (s : PidDbl K) : Prop :=
  0 ≤ s.actualKp ∧ 0 ≤ s.actualKi ∧ 0 ≤ s.actualKd

instance instDecidableActualGainsNonneg (s : PidDbl K) : Decidable (ActualGainsNonneg s) := by
  unfold ActualGainsNonneg
  infer_instance

/-- A zero-initialised controller object, before any call: every member is 0, which for
the enumerations is `PID_DIRECT` and `DONT_ACCUMULATE_OUTPUT`. -/
def sampleZero : PidDbl ℚ :=
  { controllerDir := PID_DIRECT, outputMode := DONT_ACCUMULATE_OUTPUT,
    setPoint := 0, output := 0, zKp := 0, zKi := 0, zKd := 0,
    actualKp := 0, actualKi := 0, actualKd := 0,
    prevInput := 0, inputChange := 0, error := 0, prevOutput := 0,
    samplePeriodMs := 0, pTerm := 0, iTerm := 0, dTerm := 0,
    outMin := 0, outMax := 0, numTimesRan := 0 }

/-- A record whose stored actual integral gain is negative, with scaled gains that agree
with the actual ones. No sequence of member-function calls produces it from a
zero-initialised object: it only marks the edge of the model. -/
def sampleNegativeKi : PidDbl ℚ :=
  { sampleDirect with actualKi := -1, zKi := -1, actualKd := 0, zKd := 0 }

/-- The sample controller with the run counter at the largest `uint32_t` value. -/
def sampleSaturated : PidDbl ℚ :=
  { sampleDirect with numTimesRan := 4294967295 }

/-- An accumulating controller that has run once: proportional and integral gain 1,
no derivative gain, set-point 10, previous output 0, limits `-100 .. 100`. -/
def sampleAccumulate : PidDbl ℚ :=
  { sampleDirect with outputMode := ACCUMULATE_OUTPUT, zKd := 0, actualKd := 0 }

/-- The sample controller with the set-point 200. -/
def sampleSetPoint200 : PidDbl ℚ :=
  { sampleDirect with setPoint := 200 }

/-- Neither limiting test of `Run` fires on this input: the integral sum and the output
before limiting both lie in `[outMin, outMax]`. -/
def noClampStep (self : PidDbl K) (input : K) : Prop :=
  (self.outMin ≤ self.iTerm + self.zKi * (self.setPoint - input) ∧
    self.iTerm + self.zKi * (self.setPoint - input) ≤ self.outMax) ∧
  (self.outMin ≤ rawOutput self input ∧ rawOutput self input ≤ self.outMax)

/-- Neither limiting test fires at any call of the sequence of `Run` calls. -/
def noClampSeq (self : PidDbl K) : List K → Prop
  | [] => True
  | input :: rest => noClampStep self input ∧ noClampSeq (Run self input) rest

instance instDecidableNoClampStep (self : PidDbl K) (input : K) :
    Decidable (noClampStep self input) := by
  unfold noClampStep
  infer_instance

instance instDecidableNoClampSeq : (self : PidDbl K) → (inputs : List K) →
    Decidable (noClampSeq self inputs)
  | _, [] => isTrue trivial
  | self, input :: rest =>
      @instDecidableAnd _ _ (instDecidableNoClampStep self input)
        (instDecidableNoClampSeq (Run self input) rest)

/-- Specification side, as the claim words it: the sum over the calls of
`zKp*error_k + iTermDelta_k + dTerm_k`, with `error_k = setPoint - x_k`,
`iTermDelta_k = zKi*error_k` and `dTerm_k` the derivative term stored by call `k`. -/
def deltaSum (self : PidDbl K) : List K → K
  | [] => 0
  | input :: rest =>
      (self.zKp * (self.setPoint - input) + self.zKi * (self.setPoint - input)
        + (Run self input).dTerm) + deltaSum (Run self input) rest

/-- Specification side, amended: the sum over the calls of `zKp*error_k + iTerm_k + dTerm_k`,
where `iTerm_k = iTerm_(k-1) + zKi*error_k` is the accumulated integral term of call `k`. -/
def integralSum (self : PidDbl K) : List K → K
  | [] => 0
  | input :: rest =>
      (self.zKp * (self.setPoint - input)
        + (self.iTerm + self.zKi * (self.setPoint - input))
        + (Run self input).dTerm) + integralSum (Run self input) rest

/-! ## A closed form of `Run` -/

theorem counter_test (n : Nat) : Nat.xor (if n < 2 then (1 : Nat) else 0) (32 - 1) ≠ 0 := by
  by_cases h : n < 2
  · rw [if_pos h]; decide
  · rw [if_neg h]; decide

theorem Run_eq (self : PidDbl K) (input : K) :
    Run self input =
      { self with
        error := self.setPoint - input
        iTerm := nextITerm self input
        inputChange := nextInputChange self input
        dTerm := nextDTerm self input
        output := nextOutput self input
        prevInput := input
        prevOutput := nextOutput self input
        numTimesRan := (self.numTimesRan + 1) % 2 ^ 32 } := by
  obtain ⟨dir, mode, sp, out, zp, zi, zd, ap, ai, ad, pin, ic, err, pout, per, pt, it, dt,
    lo, hi, n⟩ := self
  have hn := counter_test n
  by_cases c1 : it + zi * (sp - input) > hi <;>
  by_cases c2 : it + zi * (sp - input) < lo <;>
  by_cases c3 : n > 0 <;>
  cases mode <;>
  simp [Run, nextITerm, nextInputChange, nextDTerm, nextOutput, rawOutput, limited, c1, c2, c3, hn]
    <;> split_ifs <;> simp

theorem Run_output (self : PidDbl K) (input : K) :
    (Run self input).output = nextOutput self input := by rw [Run_eq]

theorem Run_iTerm (self : PidDbl K) (input : K) :
    (Run self input).iTerm = nextITerm self input := by rw [Run_eq]

theorem Run_dTerm (self : PidDbl K) (input : K) :
    (Run self input).dTerm = nextDTerm self input := by rw [Run_eq]

theorem Run_outMin (self : PidDbl K) (input : K) : (Run self input).outMin = self.outMin := by
  rw [Run_eq]

theorem Run_outMax (self : PidDbl K) (input : K) : (Run self input).outMax = self.outMax := by
  rw [Run_eq]

theorem limited_eq_clamp {lo hi : K} (h : lo ≤ hi) (x : K) : limited x lo hi = clamp x lo hi := by
  unfold limited clamp
  split_ifs with h1 h2
  · rw [min_eq_right h1.le, max_eq_right h]
  · rw [min_eq_left (not_lt.mp h1), max_eq_left h2.le]
  · rw [min_eq_left (not_lt.mp h1), max_eq_right (not_lt.mp h2)]

theorem limited_bounds {lo hi : K} (h : lo ≤ hi) (x : K) :
    lo ≤ limited x lo hi ∧ limited x lo hi ≤ hi := by
  unfold limited
  split_ifs with h1 h2
  · exact ⟨h, le_refl hi⟩
  · exact ⟨le_refl lo, h⟩
  · exact ⟨not_lt.mp h2, not_lt.mp h1⟩

/-! ## Sequences of `Run` calls -/

theorem RunSeq_concat (self : PidDbl K) (inputs : List K) (input : K) :
    RunSeq self (inputs ++ [input]) = Run (RunSeq self inputs) input := by
  simp [RunSeq, List.foldl_append]

theorem RunSeq_outMin (self : PidDbl K) (inputs : List K) :
    (RunSeq self inputs).outMin = self.outMin := by
  induction inputs generalizing self with
  | nil => rfl
  | cons x xs ih =>
    show (RunSeq (Run self x) xs).outMin = self.outMin
    rw [ih, Run_outMin]

theorem RunSeq_outMax (self : PidDbl K) (inputs : List K) :
    (RunSeq self inputs).outMax = self.outMax := by
  induction inputs generalizing self with
  | nil => rfl
  | cons x xs ih =>
    show (RunSeq (Run self x) xs).outMax = self.outMax
    rw [ih, Run_outMax]

/-- Every non-empty prefix of an input sequence ends with a last call of `Run`. -/
theorem take_eq_concat {α : Type} (inputs : List α) (k : Nat) (hk : 0 < k)
    (hle : k ≤ inputs.length) :
    ∃ (front : List α) (last : α), inputs.take k = front ++ [last] := by
  rcases List.eq_nil_or_concat (inputs.take k) with hnil | ⟨front, last, h⟩
  · exfalso
    have hlen : (inputs.take k).length = k := by
      rw [List.length_take]; exact min_eq_left hle
    rw [hnil] at hlen
    simp at hlen
    omega
  · exact ⟨front, last, by rw [h, List.concat_eq_append]⟩

/-! ## Output and integral limits -/

/-- C1. Output clamp: from a state with `outMin < outMax`, after one `Run` with any input
the stored output lies in `[outMin, outMax]`, and in a sequence of `Run` calls this holds
after each call (after every non-empty prefix of the inputs), whatever the output mode. -/
theorem output_within_limits (self : PidDbl K) (h : self.outMin < self.outMax) :
    (∀ input : K,
      self.outMin ≤ (Run self input).output ∧ (Run self input).output ≤ self.outMax) ∧
    (∀ (inputs : List K) (k : Nat), 0 < k → k ≤ inputs.length →
      self.outMin ≤ (RunSeq self (inputs.take k)).output ∧
      (RunSeq self (inputs.take k)).output ≤ self.outMax) := by
  have step : ∀ (s : PidDbl K) (input : K), s.outMin < s.outMax →
      s.outMin ≤ (Run s input).output ∧ (Run s input).output ≤ s.outMax := by
    intro s input hs
    rw [Run_output]
    exact limited_bounds hs.le _
  refine ⟨fun input => step self input h, ?_⟩
  intro inputs k hk hle
  obtain ⟨front, last, hfl⟩ := take_eq_concat inputs k hk hle
  rw [hfl, RunSeq_concat]
  have hs := step (RunSeq self front) last (by rw [RunSeq_outMin, RunSeq_outMax]; exact h)
  rw [RunSeq_outMin, RunSeq_outMax] at hs
  exact hs

/-- Witness of C1 on the sample controller: three calls, looked at after the second. -/
theorem output_within_limits_witness :
    sampleDirect.outMin < sampleDirect.outMax ∧
    (sampleDirect.outMin ≤ (RunSeq sampleDirect ([0, 500, -500].take 2)).output ∧
      (RunSeq sampleDirect ([0, 500, -500].take 2)).output ≤ sampleDirect.outMax) :=
  ⟨by norm_num [sampleDirect],
   (output_within_limits sampleDirect (by norm_num [sampleDirect])).2 [0, 500, -500] 2
     (by decide) (by decide)⟩

/-- C2. Anti-windup: from a state with `outMin < outMax`, whatever the prior integral term,
gain and set-point, one `Run` stores
`iTerm = clamp(iTerm_before + zKi * (setPoint - input), outMin, outMax)`, which lies in
`[outMin, outMax]`; in a sequence of `Run` calls the integral term lies in
`[outMin, outMax]` after each call. -/
theorem iTerm_within_limits (self : PidDbl K) (h : self.outMin < self.outMax) :
    (∀ input : K,
      (Run self input).iTerm
        = clamp (self.iTerm + self.zKi * (self.setPoint - input)) self.outMin self.outMax ∧
      self.outMin ≤ (Run self input).iTerm ∧ (Run self input).iTerm ≤ self.outMax) ∧
    (∀ (inputs : List K) (k : Nat), 0 < k → k ≤ inputs.length →
      self.outMin ≤ (RunSeq self (inputs.take k)).iTerm ∧
      (RunSeq self (inputs.take k)).iTerm ≤ self.outMax) := by
  have step : ∀ (s : PidDbl K) (input : K), s.outMin < s.outMax →
      s.outMin ≤ (Run s input).iTerm ∧ (Run s input).iTerm ≤ s.outMax := by
    intro s input hs
    rw [Run_iTerm]
    exact limited_bounds hs.le _
  refine ⟨fun input => ⟨?_, step self input h⟩, ?_⟩
  · rw [Run_iTerm, nextITerm, limited_eq_clamp h.le]
  · intro inputs k hk hle
    obtain ⟨front, last, hfl⟩ := take_eq_concat inputs k hk hle
    rw [hfl, RunSeq_concat]
    have hs := step (RunSeq self front) last (by rw [RunSeq_outMin, RunSeq_outMax]; exact h)
    rw [RunSeq_outMin, RunSeq_outMax] at hs
    exact hs

/-- Witness of C2 on the sample controller: an input far below the set-point drives the
integral sum to 510, and the stored integral term is the limited value. -/
theorem iTerm_within_limits_witness :
    sampleDirect.outMin < sampleDirect.outMax ∧
    ((Run sampleDirect (-500)).iTerm
        = clamp (sampleDirect.iTerm + sampleDirect.zKi * (sampleDirect.setPoint - (-500)))
            sampleDirect.outMin sampleDirect.outMax ∧
      sampleDirect.outMin ≤ (Run sampleDirect (-500)).iTerm ∧
      (Run sampleDirect (-500)).iTerm ≤ sampleDirect.outMax) :=
  ⟨by norm_num [sampleDirect],
   (iTerm_within_limits sampleDirect (by norm_num [sampleDirect])).1 (-500)⟩

/-! ## The output formula and the derivative step -/

/-- C3. Run output formula: from a state with `outMin < outMax`, with
`error = setPoint - input` and the integral and derivative terms taken after the step,
`Run` stores `output = clamp(zKp*error + iTerm + dTerm, outMin, outMax)` in
`DONT_ACCUMULATE_OUTPUT` mode and
`output = clamp(prevOutput_before + zKp*error + iTerm + dTerm, outMin, outMax)` in
`ACCUMULATE_OUTPUT` mode; afterwards `prevOutput = output` and `prevInput = input`. -/
theorem Run_output_formula (self : PidDbl K) (input : K) (h : self.outMin < self.outMax) :
    (Run self input).error = self.setPoint - input ∧
    (self.outputMode = DONT_ACCUMULATE_OUTPUT →
      (Run self input).output
        = clamp (self.zKp * (self.setPoint - input) + (Run self input).iTerm
            + (Run self input).dTerm) self.outMin self.outMax) ∧
    (self.outputMode = ACCUMULATE_OUTPUT →
      (Run self input).output
        = clamp (self.prevOutput + self.zKp * (self.setPoint - input) + (Run self input).iTerm
            + (Run self input).dTerm) self.outMin self.outMax) ∧
    (Run self input).prevOutput = (Run self input).output ∧
    (Run self input).prevInput = input := by
  refine ⟨by rw [Run_eq], ?_, ?_, by rw [Run_eq], by rw [Run_eq]⟩
  · intro hm
    rw [Run_output, Run_iTerm, Run_dTerm, nextOutput, limited_eq_clamp h.le, rawOutput, hm]
  · intro hm
    rw [Run_output, Run_iTerm, Run_dTerm, nextOutput, limited_eq_clamp h.le, rawOutput, hm]

/-- Witness of C3 on the accumulating sample controller. -/
theorem Run_output_formula_witness :
    sampleFresh.outMin < sampleFresh.outMax ∧
    sampleFresh.outputMode = ACCUMULATE_OUTPUT ∧
    (Run sampleFresh 4).output
      = clamp (sampleFresh.prevOutput + sampleFresh.zKp * (sampleFresh.setPoint - 4)
          + (Run sampleFresh 4).iTerm + (Run sampleFresh 4).dTerm)
          sampleFresh.outMin sampleFresh.outMax :=
  ⟨by norm_num [sampleFresh, sampleDirect], rfl,
   (Run_output_formula sampleFresh 4 (by norm_num [sampleFresh, sampleDirect])).2.2.1 rfl⟩

/-- C4. Derivative step: if `numTimesRan > 0` before the call, `Run` sets
`dTerm = -zKd * (input - prevInput_before)`; if `numTimesRan = 0`, `Run` leaves `dTerm`
at its value before the call. -/
theorem Run_derivative_step (self : PidDbl K) (input : K) :
    (0 < self.numTimesRan → (Run self input).dTerm = -self.zKd * (input - self.prevInput)) ∧
    (self.numTimesRan = 0 → (Run self input).dTerm = self.dTerm) := by
  constructor
  · intro hn
    rw [Run_dTerm, nextDTerm, if_pos hn]
  · intro hn
    rw [Run_dTerm, nextDTerm, if_neg (by omega)]

/-- Witness of C4: the sample controller that has run computes the derivative, the one
that has not keeps its stale derivative term 7. -/
theorem Run_derivative_step_witness :
    (0 < sampleDirect.numTimesRan ∧
      (Run sampleDirect 4).dTerm = -sampleDirect.zKd * (4 - sampleDirect.prevInput)) ∧
    (sampleFresh.numTimesRan = 0 ∧ (Run sampleFresh 4).dTerm = 7) :=
  ⟨⟨by decide, (Run_derivative_step sampleDirect 4).1 (by decide)⟩,
   ⟨rfl, (Run_derivative_step sampleFresh 4).2 rfl⟩⟩

/-! ## `Init` and the run counter -/

theorem Init_numTimesRan (self : PidDbl K) (kp ki kd : K) (controllerDir : ctrlDir_t)
    (outputMode : outputMode_t) (samplePeriodMs minOutput maxOutput setPoint : K) :
    (Init self kp ki kd controllerDir outputMode samplePeriodMs minOutput maxOutput
      setPoint).numTimesRan = self.numTimesRan := by
  simp only [Init, SetOutputLimits, SetControllerDirection, SetTunings]
  split_ifs <;> rfl

/-- C5, the code at the failing input. The sample controller has been run once
(`numTimesRan = 1`). `Init` with the valid arguments `kp = 1, ki = 0, kd = 1`, direct,
non-accumulating, 1000 ms, limits `-100 .. 100`, set-point 0 leaves `numTimesRan = 1`, and
the first `Run(1)` after it computes the derivative against the zeroed `prevInput`:
`dTerm = -1`, not 0. -/
theorem first_Run_after_Init_derivative :
    (Init sampleDirect 1 0 1 PID_DIRECT DONT_ACCUMULATE_OUTPUT 1000 (-100) 100 0).numTimesRan = 1 ∧
    (Init sampleDirect 1 0 1 PID_DIRECT DONT_ACCUMULATE_OUTPUT 1000 (-100) 100 0).dTerm = 0 ∧
    (Run (Init sampleDirect 1 0 1 PID_DIRECT DONT_ACCUMULATE_OUTPUT 1000 (-100) 100 0) 1).dTerm
      = -1 := by
  refine ⟨?_, ?_, ?_⟩
  · rw [Init_numTimesRan]; rfl
  · norm_num [Init, SetOutputLimits, SetControllerDirection, SetTunings, sampleDirect]
  · rw [Run_dTerm]
    have hne : PID_DIRECT ≠ PID_REVERSE := by decide
    norm_num [nextDTerm, Init, SetOutputLimits, SetControllerDirection, SetTunings, sampleDirect,
      hne]

/-! ## The setters -/

theorem SetTunings_accepted (self : PidDbl K) (kp ki kd : K)
    (hkp : 0 ≤ kp) (hki : 0 ≤ ki) (hkd : 0 ≤ kd) :
    SetTunings self kp ki kd =
      { self with
        actualKp := kp
        actualKi := ki
        actualKd := kd
        zKp := if self.controllerDir = PID_REVERSE then 0 - kp else kp
        zKi := if self.controllerDir = PID_REVERSE then 0 - ki * (self.samplePeriodMs / 1000)
               else ki * (self.samplePeriodMs / 1000)
        zKd := if self.controllerDir = PID_REVERSE then 0 - kd / (self.samplePeriodMs / 1000)
               else kd / (self.samplePeriodMs / 1000) } := by
  have hacc : ¬ (kp < 0 ∨ ki < 0 ∨ kd < 0) := by
    rintro (h | h | h)
    · exact absurd h (not_lt.mpr hkp)
    · exact absurd h (not_lt.mpr hki)
    · exact absurd h (not_lt.mpr hkd)
  simp only [SetTunings, if_neg hacc]
  split_ifs <;> rfl

theorem SetTunings_rejected (self : PidDbl K) (kp ki kd : K) (h : kp < 0 ∨ ki < 0 ∨ kd < 0) :
    SetTunings self kp ki kd = self := by
  simp only [SetTunings, if_pos h]

theorem SetOutputLimits_accepted (self : PidDbl K) (min max : K) (h : min < max) :
    SetOutputLimits self min max = { self with outMin := min, outMax := max } := by
  simp only [SetOutputLimits, if_neg (not_le.mpr h)]

theorem SetOutputLimits_rejected (self : PidDbl K) (min max : K) (h : min ≥ max) :
    SetOutputLimits self min max = self := by
  simp only [SetOutputLimits, if_pos h]

theorem SetControllerDirection_eq (self : PidDbl K) (controllerDir : ctrlDir_t) :
    SetControllerDirection self controllerDir = self := by
  simp [SetControllerDirection]

theorem SetSamplePeriod_pos (self : PidDbl K) (n : Nat) (hn : 0 < n) :
    SetSamplePeriod self n =
      { self with
        zKi := self.zKi * ((n : K) / self.samplePeriodMs)
        zKd := self.zKd / ((n : K) / self.samplePeriodMs)
        samplePeriodMs := (n : K) } := by
  simp only [SetSamplePeriod, gt_iff_lt, if_pos hn]

theorem SetSamplePeriod_zero (self : PidDbl K) : SetSamplePeriod self 0 = self := by
  simp [SetSamplePeriod]

/-- C6. SetTunings scaling: for `kp, ki, kd >= 0` and `samplePeriodMs > 0`, after
`SetTunings(kp, ki, kd)` the actual gains (what `GetKp/GetKi/GetKd` return) are
`kp, ki, kd`, and the scaled gains (what `GetZp/GetZi/GetZd` return) are `kp`,
`ki * (samplePeriodMs/1000)`, `kd / (samplePeriodMs/1000)` when the stored direction is
`PID_DIRECT` and the negation of each when it is `PID_REVERSE`. The stored direction and
sample period are those before the call. -/
theorem SetTunings_scaling (self : PidDbl K) (kp ki kd : K)
    (hkp : 0 ≤ kp) (hki : 0 ≤ ki) (hkd : 0 ≤ kd) (hT : 0 < self.samplePeriodMs) :
    GetKp (SetTunings self kp ki kd) = kp ∧
    GetKi (SetTunings self kp ki kd) = ki ∧
    GetKd (SetTunings self kp ki kd) = kd ∧
    (SetTunings self kp ki kd).controllerDir = self.controllerDir ∧
    (SetTunings self kp ki kd).samplePeriodMs = self.samplePeriodMs ∧
    (self.controllerDir = PID_DIRECT →
      GetZp (SetTunings self kp ki kd) = kp ∧
      GetZi (SetTunings self kp ki kd) = ki * (self.samplePeriodMs / 1000) ∧
      GetZd (SetTunings self kp ki kd) = kd / (self.samplePeriodMs / 1000)) ∧
    (self.controllerDir = PID_REVERSE →
      GetZp (SetTunings self kp ki kd) = -kp ∧
      GetZi (SetTunings self kp ki kd) = -(ki * (self.samplePeriodMs / 1000)) ∧
      GetZd (SetTunings self kp ki kd) = -(kd / (self.samplePeriodMs / 1000))) := by
  rw [SetTunings_accepted self kp ki kd hkp hki hkd]
  refine ⟨rfl, rfl, rfl, rfl, rfl, ?_, ?_⟩
  · intro hd
    have hne : ¬ self.controllerDir = PID_REVERSE := by rw [hd]; decide
    simp only [GetZp, GetZi, GetZd, if_neg hne, and_self]
  · intro hd
    simp only [GetZp, GetZi, GetZd, if_pos hd, zero_sub, and_self]

/-- Witness of C6 on the reverse-acting sample controller (1000 ms):
`SetTunings(2, 3, 4)` stores the scaled gains `-2, -3, -4`. -/
theorem SetTunings_scaling_witness :
    ((0 : ℚ) ≤ 2 ∧ (0 : ℚ) ≤ 3 ∧ (0 : ℚ) ≤ 4 ∧ 0 < sampleReverse.samplePeriodMs ∧
      sampleReverse.controllerDir = PID_REVERSE) ∧
    (GetZp (SetTunings sampleReverse 2 3 4) = -2 ∧
      GetZi (SetTunings sampleReverse 2 3 4) = -(3 * (sampleReverse.samplePeriodMs / 1000)) ∧
      GetZd (SetTunings sampleReverse 2 3 4) = -(4 / (sampleReverse.samplePeriodMs / 1000))) :=
  ⟨⟨by norm_num, by norm_num, by norm_num, by norm_num [sampleReverse, sampleDirect], rfl⟩,
   (SetTunings_scaling sampleReverse 2 3 4 (by norm_num) (by norm_num) (by norm_num)
      (by norm_num [sampleReverse, sampleDirect])).2.2.2.2.2.2 rfl⟩

/-- C7. Rejection leaves the state unchanged: `SetTunings(kp, ki, kd)` with at least one
negative argument, and `SetOutputLimits(min, max)` with `min >= max`, return the
controller with every field equal to its value before the call. -/
theorem rejection_leaves_state_unchanged (self : PidDbl K) :
    (∀ kp ki kd : K, kp < 0 ∨ ki < 0 ∨ kd < 0 → SetTunings self kp ki kd = self) ∧
    (∀ min max : K, min ≥ max → SetOutputLimits self min max = self) :=
  ⟨fun kp ki kd h => SetTunings_rejected self kp ki kd h,
   fun min max h => SetOutputLimits_rejected self min max h⟩

/-- Witness of C7: one negative gain among valid ones, and equal limits. -/
theorem rejection_leaves_state_unchanged_witness :
    (((5 : ℚ) < 0 ∨ (-1 : ℚ) < 0 ∨ (2 : ℚ) < 0) ∧ SetTunings sampleDirect 5 (-1) 2 = sampleDirect) ∧
    (((3 : ℚ) ≥ 3) ∧ SetOutputLimits sampleDirect 3 3 = sampleDirect) :=
  ⟨⟨Or.inr (Or.inl (by norm_num)),
     (rejection_leaves_state_unchanged sampleDirect).1 5 (-1) 2 (Or.inr (Or.inl (by norm_num)))⟩,
   ⟨le_refl 3, (rejection_leaves_state_unchanged sampleDirect).2 3 3 (le_refl 3)⟩⟩

/-- C8. SetOutputLimits acceptance: for `min < max`, after `SetOutputLimits(min, max)`
`outMin = min`, `outMax = max` and every other field is unchanged; `iTerm` and `output`
keep their values, also when these lie outside `[min, max]`. -/
theorem SetOutputLimits_acceptance (self : PidDbl K) (min max : K) (h : min < max) :
    SetOutputLimits self min max = { self with outMin := min, outMax := max } ∧
    (SetOutputLimits self min max).outMin = min ∧
    (SetOutputLimits self min max).outMax = max ∧
    (SetOutputLimits self min max).iTerm = self.iTerm ∧
    (SetOutputLimits self min max).output = self.output := by
  rw [SetOutputLimits_accepted self min max h]
  exact ⟨rfl, rfl, rfl, rfl, rfl⟩

/-- Witness of C8: the limits `20 .. 30` are accepted while the stored `iTerm = 0` and
`output = 0` lie below them, and both stay 0. -/
theorem SetOutputLimits_acceptance_witness :
    (20 : ℚ) < 30 ∧
    (SetOutputLimits sampleDirect 20 30).outMin = 20 ∧
    (SetOutputLimits sampleDirect 20 30).iTerm = 0 ∧
    (SetOutputLimits sampleDirect 20 30).output = 0 :=
  ⟨by norm_num,
   (SetOutputLimits_acceptance sampleDirect 20 30 (by norm_num)).2.1,
   (SetOutputLimits_acceptance sampleDirect 20 30 (by norm_num)).2.2.2.1,
   (SetOutputLimits_acceptance sampleDirect 20 30 (by norm_num)).2.2.2.2⟩

/-- C9. SetSamplePeriod rescaling: from a state with `samplePeriodMs > 0`, for every
unsigned 32-bit `n > 0`, `SetSamplePeriod(n)` sets `zKi = zKi_before * r` and
`zKd = zKd_before / r` with `r = n / samplePeriodMs_before`, sets `samplePeriodMs = n` and
leaves `zKp` and the actual gains unchanged; a zero `zKi` stays zero, and doubling the
period doubles `zKi` and halves `zKd`. `SetSamplePeriod(0)` leaves the whole state
unchanged. -/
theorem SetSamplePeriod_rescaling (self : PidDbl K) (hT : 0 < self.samplePeriodMs) :
    (∀ n : Nat, 0 < n → n < 2 ^ 32 →
      (SetSamplePeriod self n).zKi = self.zKi * ((n : K) / self.samplePeriodMs) ∧
      (SetSamplePeriod self n).zKd = self.zKd / ((n : K) / self.samplePeriodMs) ∧
      (SetSamplePeriod self n).samplePeriodMs = (n : K) ∧
      (SetSamplePeriod self n).zKp = self.zKp ∧
      (SetSamplePeriod self n).actualKp = self.actualKp ∧
      (SetSamplePeriod self n).actualKi = self.actualKi ∧
      (SetSamplePeriod self n).actualKd = self.actualKd ∧
      (self.zKi = 0 → (SetSamplePeriod self n).zKi = 0) ∧
      ((n : K) = 2 * self.samplePeriodMs →
        (SetSamplePeriod self n).zKi = 2 * self.zKi ∧
        (SetSamplePeriod self n).zKd = self.zKd / 2)) ∧
    SetSamplePeriod self 0 = self := by
  refine ⟨?_, SetSamplePeriod_zero self⟩
  intro n hn _
  rw [SetSamplePeriod_pos self n hn]
  refine ⟨rfl, rfl, rfl, rfl, rfl, rfl, rfl, ?_, ?_⟩
  · intro hz
    show self.zKi * ((n : K) / self.samplePeriodMs) = 0
    rw [hz, zero_mul]
  · intro hdouble
    have hr : (n : K) / self.samplePeriodMs = 2 := by
      rw [hdouble]; field_simp
    constructor
    · show self.zKi * ((n : K) / self.samplePeriodMs) = 2 * self.zKi
      rw [hr, mul_comm]
    · show self.zKd / ((n : K) / self.samplePeriodMs) = self.zKd / 2
      rw [hr]

/-- Witness of C9: the change from 100 ms to 200 ms doubles `zKi` and halves `zKd`. -/
theorem SetSamplePeriod_rescaling_witness :
    (0 < sample100.samplePeriodMs ∧ 0 < 200 ∧ 200 < 2 ^ 32 ∧
      ((200 : Nat) : ℚ) = 2 * sample100.samplePeriodMs) ∧
    ((SetSamplePeriod sample100 200).zKi = 2 * sample100.zKi ∧
      (SetSamplePeriod sample100 200).zKd = sample100.zKd / 2) :=
  ⟨⟨by norm_num [sample100], by decide, by decide, by norm_num [sample100]⟩,
   ((SetSamplePeriod_rescaling sample100 (by norm_num [sample100])).1 200
      (by decide) (by decide)).2.2.2.2.2.2.2.2 (by norm_num [sample100])⟩

/-! ## Consistency of the scaled gains -/

theorem Consistent_SetTunings (self : PidDbl K) (h : Consistent self) (kp ki kd : K) :
    Consistent (SetTunings self kp ki kd) := by
  by_cases hrej : kp < 0 ∨ ki < 0 ∨ kd < 0
  · rw [SetTunings_rejected self kp ki kd hrej]; exact h
  · have hkp : 0 ≤ kp := not_lt.mp fun hc => hrej (Or.inl hc)
    have hki : 0 ≤ ki := not_lt.mp fun hc => hrej (Or.inr (Or.inl hc))
    have hkd : 0 ≤ kd := not_lt.mp fun hc => hrej (Or.inr (Or.inr hc))
    rw [SetTunings_accepted self kp ki kd hkp hki hkd]
    refine ⟨h.1, ?_, ?_, ?_⟩
    · show (if self.controllerDir = PID_REVERSE then 0 - kp else kp)
        = dirSign self.controllerDir * kp
      unfold dirSign
      split_ifs <;> ring
    · show (if self.controllerDir = PID_REVERSE then 0 - ki * (self.samplePeriodMs / 1000)
          else ki * (self.samplePeriodMs / 1000))
        = dirSign self.controllerDir * ki * (self.samplePeriodMs / 1000)
      unfold dirSign
      split_ifs <;> ring
    · show (if self.controllerDir = PID_REVERSE then 0 - kd / (self.samplePeriodMs / 1000)
          else kd / (self.samplePeriodMs / 1000))
        = dirSign self.controllerDir * kd / (self.samplePeriodMs / 1000)
      unfold dirSign
      split_ifs <;> ring

theorem Consistent_SetSamplePeriod (self : PidDbl K) (h : Consistent self) (n : Nat) :
    Consistent (SetSamplePeriod self n) := by
  rcases Nat.eq_zero_or_pos n with hz | hn
  · rw [hz, SetSamplePeriod_zero]; exact h
  · obtain ⟨hT, hp, hi, hd⟩ := h
    have hT0 : self.samplePeriodMs ≠ 0 := ne_of_gt hT
    have hnK : (0 : K) < (n : K) := Nat.cast_pos.mpr hn
    have hn0 : (n : K) ≠ 0 := ne_of_gt hnK
    rw [SetSamplePeriod_pos self n hn]
    refine ⟨hnK, hp, ?_, ?_⟩
    · show self.zKi * ((n : K) / self.samplePeriodMs)
        = dirSign self.controllerDir * self.actualKi * ((n : K) / 1000)
      rw [hi]; field_simp; ring
    · show self.zKd / ((n : K) / self.samplePeriodMs)
        = dirSign self.controllerDir * self.actualKd / ((n : K) / 1000)
      rw [hd]; field_simp

theorem SetSamplePeriod_eq_recompute (self : PidDbl K) (h : Consistent self) (n : Nat)
    (hn : 0 < n) (hkp : 0 ≤ self.actualKp) (hki : 0 ≤ self.actualKi)
    (hkd : 0 ≤ self.actualKd) :
    SetSamplePeriod self n
      = SetTunings { self with samplePeriodMs := (n : K) }
          self.actualKp self.actualKi self.actualKd := by
  have hc := Consistent_SetSamplePeriod self h n
  rw [SetTunings_accepted _ _ _ _ hkp hki hkd]
  rw [SetSamplePeriod_pos self n hn] at hc ⊢
  obtain ⟨-, hp, hi, hd⟩ := hc
  obtain ⟨dir, mode, sp, out, zp, zi, zd, ap, ai, ad, pin, ic, err, pout, per, pt, it, dt,
    lo, hi', cnt⟩ := self
  simp only [PidDbl.mk.injEq, true_and, and_true]
  simp only at hp hi hd
  refine ⟨?_, ?_, ?_⟩
  · rw [hp]; unfold dirSign; split_ifs <;> ring
  · rw [hi]; unfold dirSign; split_ifs <;> ring
  · rw [hd]; unfold dirSign; split_ifs <;> ring

theorem ActualGainsNonneg_SetTunings (self : PidDbl K) (h : ActualGainsNonneg self)
    (kp ki kd : K) : ActualGainsNonneg (SetTunings self kp ki kd) := by
  by_cases hrej : kp < 0 ∨ ki < 0 ∨ kd < 0
  · rw [SetTunings_rejected self kp ki kd hrej]; exact h
  · have hkp : 0 ≤ kp := not_lt.mp fun hc => hrej (Or.inl hc)
    have hki : 0 ≤ ki := not_lt.mp fun hc => hrej (Or.inr (Or.inl hc))
    have hkd : 0 ≤ kd := not_lt.mp fun hc => hrej (Or.inr (Or.inr hc))
    rw [SetTunings_accepted self kp ki kd hkp hki hkd]
    exact ⟨hkp, hki, hkd⟩

theorem ActualGainsNonneg_SetOutputLimits (self : PidDbl K) (h : ActualGainsNonneg self)
    (min max : K) : ActualGainsNonneg (SetOutputLimits self min max) := by
  by_cases hrej : min ≥ max
  · rw [SetOutputLimits_rejected self min max hrej]; exact h
  · rw [SetOutputLimits_accepted self min max (not_le.mp hrej)]; exact h

/-- The actual gains are never negative in an object the member functions can produce:
the zero-initialised object has them at 0, and `Init`, `SetTunings`, `SetSamplePeriod`,
`SetOutputLimits`, `SetControllerDirection` and `Run` keep them non-negative, with every
argument. -/
theorem ActualGainsNonneg_invariant :
    ActualGainsNonneg sampleZero ∧
    ∀ self : PidDbl K, ActualGainsNonneg self →
      (∀ (kp ki kd : K) (controllerDir : ctrlDir_t) (outputMode : outputMode_t)
          (samplePeriodMs minOutput maxOutput setPoint : K),
        ActualGainsNonneg (Init self kp ki kd controllerDir outputMode samplePeriodMs
          minOutput maxOutput setPoint)) ∧
      (∀ kp ki kd : K, ActualGainsNonneg (SetTunings self kp ki kd)) ∧
      (∀ n : Nat, ActualGainsNonneg (SetSamplePeriod self n)) ∧
      (∀ min max : K, ActualGainsNonneg (SetOutputLimits self min max)) ∧
      (∀ d : ctrlDir_t, ActualGainsNonneg (SetControllerDirection self d)) ∧
      (∀ input : K, ActualGainsNonneg (Run self input)) := by
  refine ⟨by norm_num [ActualGainsNonneg, sampleZero], ?_⟩
  intro self h
  refine ⟨?_, ActualGainsNonneg_SetTunings self h, ?_,
    ActualGainsNonneg_SetOutputLimits self h, ?_, ?_⟩
  · intro kp ki kd controllerDir outputMode samplePeriodMs minOutput maxOutput setPoint
    simp only [Init, SetControllerDirection_eq]
    exact ActualGainsNonneg_SetTunings
      { SetOutputLimits self minOutput maxOutput with samplePeriodMs := samplePeriodMs }
      (ActualGainsNonneg_SetOutputLimits self h minOutput maxOutput) kp ki kd
  · intro n
    rcases Nat.eq_zero_or_pos n with hz | hn
    · rw [hz, SetSamplePeriod_zero]; exact h
    · rw [SetSamplePeriod_pos self n hn]; exact h
  · intro d
    rw [SetControllerDirection_eq]; exact h
  · intro input
    rw [Run_eq]; exact h

/-- Edge of the model: the record `sampleNegativeKi` is consistent but stores
`actualKi = -1`, which violates `ActualGainsNonneg` and which no call sequence produces.
On it `SetSamplePeriod(2000)` rescales `zKi` to `-2`, while
`SetTunings(actualKp, actualKi, actualKd)` at the sample period 2000 rejects the negative
gain and leaves `zKi = -1`. This is why the recomputation below is stated for
non-negative actual gains. -/
theorem recompute_differs_for_negative_gain :
    Consistent sampleNegativeKi ∧
    (SetSamplePeriod sampleNegativeKi 2000).zKi = -2 ∧
    (SetTunings { sampleNegativeKi with samplePeriodMs := ((2000 : Nat) : ℚ) }
      sampleNegativeKi.actualKp sampleNegativeKi.actualKi sampleNegativeKi.actualKd).zKi = -1 ∧
    (SetSamplePeriod sampleNegativeKi 2000).zKi
      ≠ (SetTunings { sampleNegativeKi with samplePeriodMs := ((2000 : Nat) : ℚ) }
          sampleNegativeKi.actualKp sampleNegativeKi.actualKi sampleNegativeKi.actualKd).zKi := by
  have hne : PID_DIRECT ≠ PID_REVERSE := by decide
  have h1 : (SetSamplePeriod sampleNegativeKi 2000).zKi = -2 := by
    rw [SetSamplePeriod_pos _ _ (by decide)]
    norm_num [sampleNegativeKi, sampleDirect]
  have h2 : (SetTunings { sampleNegativeKi with samplePeriodMs := ((2000 : Nat) : ℚ) }
      sampleNegativeKi.actualKp sampleNegativeKi.actualKi sampleNegativeKi.actualKd).zKi
        = -1 := by
    rw [SetTunings_rejected _ _ _ _ (Or.inr (Or.inl (by norm_num [sampleNegativeKi, sampleDirect])))]
    rfl
  refine ⟨?_, h1, h2, ?_⟩
  · norm_num [Consistent, dirSign, sampleNegativeKi, sampleDirect, hne]
  · rw [h1, h2]; norm_num

/-- C10. Scaled-gain consistency invariant: `Consistent` is preserved by `SetTunings`
(accepted or rejected), `SetSamplePeriod`, `SetOutputLimits`, `SetControllerDirection` and
`Run`, with every argument. In particular, with the stored actual gains not negative, as
they are in every object the member functions produce (`ActualGainsNonneg_invariant`),
`SetSamplePeriod(n)` with `n > 0` yields the same state, hence the same `zKi` and `zKd`,
as `SetTunings(actualKp, actualKi, actualKd)` at sample period `n`. -/
theorem Consistent_preserved (self : PidDbl K) (h : Consistent self) :
    (∀ kp ki kd : K, Consistent (SetTunings self kp ki kd)) ∧
    (∀ n : Nat, Consistent (SetSamplePeriod self n)) ∧
    (∀ min max : K, Consistent (SetOutputLimits self min max)) ∧
    (∀ d : ctrlDir_t, Consistent (SetControllerDirection self d)) ∧
    (∀ input : K, Consistent (Run self input)) ∧
    (∀ n : Nat, 0 < n → 0 ≤ self.actualKp → 0 ≤ self.actualKi → 0 ≤ self.actualKd →
      SetSamplePeriod self n
        = SetTunings { self with samplePeriodMs := (n : K) }
            self.actualKp self.actualKi self.actualKd) := by
  refine ⟨Consistent_SetTunings self h, Consistent_SetSamplePeriod self h, ?_, ?_, ?_,
    fun n hn hkp hki hkd => SetSamplePeriod_eq_recompute self h n hn hkp hki hkd⟩
  · intro min max
    by_cases hrej : min ≥ max
    · rw [SetOutputLimits_rejected self min max hrej]; exact h
    · rw [SetOutputLimits_accepted self min max (not_le.mp hrej)]; exact h
  · intro d
    rw [SetControllerDirection_eq]; exact h
  · intro input
    rw [Run_eq]; exact h

/-- Witness of C10: the sample controller at 100 ms is consistent with
non-negative actual gains, and `SetSamplePeriod(200)` gives the state that `SetTunings`
computes at 200 ms. -/
theorem Consistent_preserved_witness :
    (Consistent sample100 ∧ 0 < 200 ∧ 0 ≤ sample100.actualKp ∧ 0 ≤ sample100.actualKi ∧
      0 ≤ sample100.actualKd) ∧
    Consistent (SetSamplePeriod sample100 200) ∧
    SetSamplePeriod sample100 200
      = SetTunings { sample100 with samplePeriodMs := ((200 : Nat) : ℚ) }
          sample100.actualKp sample100.actualKi sample100.actualKd := by
  have hne : PID_DIRECT ≠ PID_REVERSE := by decide
  have hc : Consistent sample100 := by
    norm_num [Consistent, dirSign, sample100, sampleDirect, hne]
  have hp : 0 ≤ sample100.actualKp := by norm_num [sample100, sampleDirect]
  have hi : 0 ≤ sample100.actualKi := by norm_num [sample100, sampleDirect]
  have hd : 0 ≤ sample100.actualKd := by norm_num [sample100, sampleDirect]
  exact ⟨⟨hc, by decide, hp, hi, hd⟩, (Consistent_preserved sample100 hc).2.1 200,
    (Consistent_preserved sample100 hc).2.2.2.2.2 200 (by decide) hp hi hd⟩

/-! ## What `Init` stores -/

theorem Init_eq (self : PidDbl K) (kp ki kd : K) (controllerDir : ctrlDir_t)
    (outputMode : outputMode_t) (samplePeriodMs minOutput maxOutput setPoint : K) :
    Init self kp ki kd controllerDir outputMode samplePeriodMs minOutput maxOutput setPoint
      = { SetTunings { SetOutputLimits self minOutput maxOutput with
                        samplePeriodMs := samplePeriodMs } kp ki kd with
          prevInput := 0, prevOutput := 0, pTerm := 0, iTerm := 0, dTerm := 0 } := by
  simp only [Init, SetControllerDirection_eq]

theorem SetTunings_frame (self : PidDbl K) (kp ki kd : K) :
    (SetTunings self kp ki kd).setPoint = self.setPoint ∧
    (SetTunings self kp ki kd).outputMode = self.outputMode ∧
    (SetTunings self kp ki kd).controllerDir = self.controllerDir ∧
    (SetTunings self kp ki kd).samplePeriodMs = self.samplePeriodMs ∧
    (SetTunings self kp ki kd).outMin = self.outMin ∧
    (SetTunings self kp ki kd).outMax = self.outMax ∧
    (SetTunings self kp ki kd).numTimesRan = self.numTimesRan := by
  simp only [SetTunings]
  split_ifs <;> exact ⟨rfl, rfl, rfl, rfl, rfl, rfl, rfl⟩

theorem SetOutputLimits_frame (self : PidDbl K) (min max : K) :
    (SetOutputLimits self min max).setPoint = self.setPoint ∧
    (SetOutputLimits self min max).outputMode = self.outputMode ∧
    (SetOutputLimits self min max).controllerDir = self.controllerDir ∧
    (SetOutputLimits self min max).numTimesRan = self.numTimesRan := by
  simp only [SetOutputLimits]
  split_ifs <;> exact ⟨rfl, rfl, rfl, rfl⟩

theorem Init_setPoint (self : PidDbl K) (kp ki kd : K) (controllerDir : ctrlDir_t)
    (outputMode : outputMode_t) (samplePeriodMs minOutput maxOutput setPoint : K) :
    (Init self kp ki kd controllerDir outputMode samplePeriodMs minOutput maxOutput
      setPoint).setPoint = self.setPoint := by
  rw [Init_eq]
  show (SetTunings _ kp ki kd).setPoint = self.setPoint
  rw [(SetTunings_frame _ kp ki kd).1]
  exact (SetOutputLimits_frame self minOutput maxOutput).1

theorem Init_outputMode (self : PidDbl K) (kp ki kd : K) (controllerDir : ctrlDir_t)
    (outputMode : outputMode_t) (samplePeriodMs minOutput maxOutput setPoint : K) :
    (Init self kp ki kd controllerDir outputMode samplePeriodMs minOutput maxOutput
      setPoint).outputMode = self.outputMode := by
  rw [Init_eq]
  show (SetTunings _ kp ki kd).outputMode = self.outputMode
  rw [(SetTunings_frame _ kp ki kd).2.1]
  exact (SetOutputLimits_frame self minOutput maxOutput).2.1

theorem Init_controllerDir (self : PidDbl K) (kp ki kd : K) (controllerDir : ctrlDir_t)
    (outputMode : outputMode_t) (samplePeriodMs minOutput maxOutput setPoint : K) :
    (Init self kp ki kd controllerDir outputMode samplePeriodMs minOutput maxOutput
      setPoint).controllerDir = self.controllerDir := by
  rw [Init_eq]
  show (SetTunings _ kp ki kd).controllerDir = self.controllerDir
  rw [(SetTunings_frame _ kp ki kd).2.2.1]
  exact (SetOutputLimits_frame self minOutput maxOutput).2.2.1

theorem Init_samplePeriodMs (self : PidDbl K) (kp ki kd : K) (controllerDir : ctrlDir_t)
    (outputMode : outputMode_t) (samplePeriodMs minOutput maxOutput setPoint : K) :
    (Init self kp ki kd controllerDir outputMode samplePeriodMs minOutput maxOutput
      setPoint).samplePeriodMs = samplePeriodMs := by
  rw [Init_eq]
  show (SetTunings _ kp ki kd).samplePeriodMs = samplePeriodMs
  rw [(SetTunings_frame _ kp ki kd).2.2.2.1]

/-- C11, the code at the failing input. On the sample controller (stored set-point 10,
stored mode `DONT_ACCUMULATE_OUTPUT`), `Init` with the valid arguments `kp = 1, ki = 0,
kd = 0`, direct, `ACCUMULATE_OUTPUT`, 100 ms, limits `-100 .. 100`, set-point 200 stores
the sample period 100 but leaves the stored set-point at 10 and the stored mode at
`DONT_ACCUMULATE_OUTPUT`. -/
theorem Init_keeps_setPoint_and_outputMode :
    (Init sampleDirect 1 0 0 PID_DIRECT ACCUMULATE_OUTPUT 100 (-100) 100 200).setPoint = 10 ∧
    (Init sampleDirect 1 0 0 PID_DIRECT ACCUMULATE_OUTPUT 100 (-100) 100 200).outputMode
      = DONT_ACCUMULATE_OUTPUT ∧
    (Init sampleDirect 1 0 0 PID_DIRECT ACCUMULATE_OUTPUT 100 (-100) 100 200).samplePeriodMs
      = 100 := by
  refine ⟨?_, ?_, ?_⟩
  · rw [Init_setPoint]; rfl
  · rw [Init_outputMode]; rfl
  · rw [Init_samplePeriodMs]

/-- C12. `Init` zeroes the running terms: for every prior state and every argument list,
valid or not, after `Init` the fields `prevInput`, `prevOutput`, `pTerm`, `iTerm` and
`dTerm` are all 0. -/
theorem Init_zeroes_running_terms (self : PidDbl K) (kp ki kd : K) (controllerDir : ctrlDir_t)
    (outputMode : outputMode_t) (samplePeriodMs minOutput maxOutput setPoint : K) :
    (Init self kp ki kd controllerDir outputMode samplePeriodMs minOutput maxOutput
      setPoint).prevInput = 0 ∧
    (Init self kp ki kd controllerDir outputMode samplePeriodMs minOutput maxOutput
      setPoint).prevOutput = 0 ∧
    (Init self kp ki kd controllerDir outputMode samplePeriodMs minOutput maxOutput
      setPoint).pTerm = 0 ∧
    (Init self kp ki kd controllerDir outputMode samplePeriodMs minOutput maxOutput
      setPoint).iTerm = 0 ∧
    (Init self kp ki kd controllerDir outputMode samplePeriodMs minOutput maxOutput
      setPoint).dTerm = 0 := by
  rw [Init_eq]
  exact ⟨rfl, rfl, rfl, rfl, rfl⟩

theorem Init_valid (self : PidDbl K) (kp ki kd : K) (controllerDir : ctrlDir_t)
    (outputMode : outputMode_t) (samplePeriodMs minOutput maxOutput setPoint : K)
    (hkp : 0 ≤ kp) (hki : 0 ≤ ki) (hkd : 0 ≤ kd) (hlim : minOutput < maxOutput) :
    Init self kp ki kd controllerDir outputMode samplePeriodMs minOutput maxOutput setPoint
      = { self with
          outMin := minOutput
          outMax := maxOutput
          samplePeriodMs := samplePeriodMs
          actualKp := kp
          actualKi := ki
          actualKd := kd
          zKp := if self.controllerDir = PID_REVERSE then 0 - kp else kp
          zKi := if self.controllerDir = PID_REVERSE then 0 - ki * (samplePeriodMs / 1000)
                 else ki * (samplePeriodMs / 1000)
          zKd := if self.controllerDir = PID_REVERSE then 0 - kd / (samplePeriodMs / 1000)
                 else kd / (samplePeriodMs / 1000)
          prevInput := 0
          prevOutput := 0
          pTerm := 0
          iTerm := 0
          dTerm := 0 } := by
  rw [Init_eq, SetOutputLimits_accepted self minOutput maxOutput hlim,
    SetTunings_accepted _ kp ki kd hkp hki hkd]

theorem limited_zero {lo hi : K} (hlo : lo ≤ 0) (hhi : 0 ≤ hi) : limited 0 lo hi = 0 := by
  unfold limited
  rw [if_neg (not_lt.mpr hhi), if_neg (not_lt.mpr hlo)]

/-- Limits that exclude 0: the sample controller
already stores the set-point 10, the mode `DONT_ACCUMULATE_OUTPUT` and the direction
`PID_DIRECT`; after `Init(1, 0, 0, PID_DIRECT, DONT_ACCUMULATE_OUTPUT, 100, 5, 50, 10)`,
`Run(0)` limits the zero integral term into `[5, 50]`, so `iTerm = 5` and `output = 15`,
while `clamp(1 * (10 - 0), 5, 50) = 10`. -/
theorem proportional_step_fails_when_limits_exclude_zero :
    (Run (Init sampleDirect 1 0 0 PID_DIRECT DONT_ACCUMULATE_OUTPUT 100 5 50 10) 0).iTerm = 5 ∧
    (Run (Init sampleDirect 1 0 0 PID_DIRECT DONT_ACCUMULATE_OUTPUT 100 5 50 10) 0).output = 15 ∧
    clamp (1 * (10 - 0)) 5 50 = (10 : ℚ) ∧
    (Run (Init sampleDirect 1 0 0 PID_DIRECT DONT_ACCUMULATE_OUTPUT 100 5 50 10) 0).output
      ≠ clamp (1 * (10 - 0)) 5 50 := by
  have hne : PID_DIRECT ≠ PID_REVERSE := by decide
  have hi : (Run (Init sampleDirect 1 0 0 PID_DIRECT DONT_ACCUMULATE_OUTPUT 100 5 50 10)
      0).iTerm = 5 := by
    rw [Run_iTerm, Init_valid _ _ _ _ _ _ _ _ _ _ (by norm_num) (by norm_num) (by norm_num)
      (by norm_num)]
    norm_num [nextITerm, limited, sampleDirect, hne]
  have ho : (Run (Init sampleDirect 1 0 0 PID_DIRECT DONT_ACCUMULATE_OUTPUT 100 5 50 10)
      0).output = 15 := by
    rw [Run_output, Init_valid _ _ _ _ _ _ _ _ _ _ (by norm_num) (by norm_num) (by norm_num)
      (by norm_num)]
    norm_num [nextOutput, rawOutput, nextITerm, nextDTerm, limited, sampleDirect, hne]
  have hc : clamp (1 * (10 - 0)) 5 50 = (10 : ℚ) := by
    norm_num [clamp]
  refine ⟨hi, ho, hc, ?_⟩
  rw [ho, hc]; norm_num

/-- The end-to-end proportional step where the slips of `Init` do not show.
For every prior state that already stores the set-point `sp`, the mode
`DONT_ACCUMULATE_OUTPUT` and the direction `PID_DIRECT`, after
`Init(kp, 0, 0, PID_DIRECT, DONT_ACCUMULATE_OUTPUT, samplePeriodMs, minOutput, maxOutput, sp)`
with `kp >= 0`, `samplePeriodMs > 0` and `minOutput <= 0 <= maxOutput`,
`minOutput < maxOutput`, `Run(x)` sets `error = sp - x` and
`output = clamp(kp * (sp - x), minOutput, maxOutput)` with `iTerm = 0` and `dTerm = 0`. -/
theorem Init_then_Run_proportional (self : PidDbl K) (kp samplePeriodMs minOutput maxOutput sp x : K)
    (hkp : 0 ≤ kp) (hT : 0 < samplePeriodMs) (hlim : minOutput < maxOutput)
    (hlo : minOutput ≤ 0) (hhi : 0 ≤ maxOutput)
    (hsp : self.setPoint = sp) (hmode : self.outputMode = DONT_ACCUMULATE_OUTPUT)
    (hdir : self.controllerDir = PID_DIRECT) :
    (Run (Init self kp 0 0 PID_DIRECT DONT_ACCUMULATE_OUTPUT samplePeriodMs minOutput
      maxOutput sp) x).error = sp - x ∧
    (Run (Init self kp 0 0 PID_DIRECT DONT_ACCUMULATE_OUTPUT samplePeriodMs minOutput
      maxOutput sp) x).output = clamp (kp * (sp - x)) minOutput maxOutput ∧
    (Run (Init self kp 0 0 PID_DIRECT DONT_ACCUMULATE_OUTPUT samplePeriodMs minOutput
      maxOutput sp) x).iTerm = 0 ∧
    (Run (Init self kp 0 0 PID_DIRECT DONT_ACCUMULATE_OUTPUT samplePeriodMs minOutput
      maxOutput sp) x).dTerm = 0 := by
  have hne : ¬ self.controllerDir = PID_REVERSE := by rw [hdir]; decide
  rw [Init_valid self kp 0 0 _ _ _ _ _ _ hkp le_rfl le_rfl hlim, Run_eq]
  have hI : nextITerm
      { self with
          outMin := minOutput
          outMax := maxOutput
          samplePeriodMs := samplePeriodMs
          actualKp := kp
          actualKi := 0
          actualKd := 0
          zKp := if self.controllerDir = PID_REVERSE then 0 - kp else kp
          zKi := if self.controllerDir = PID_REVERSE then 0 - 0 * (samplePeriodMs / 1000)
                 else 0 * (samplePeriodMs / 1000)
          zKd := if self.controllerDir = PID_REVERSE then 0 - 0 / (samplePeriodMs / 1000)
                 else 0 / (samplePeriodMs / 1000)
          prevInput := 0
          prevOutput := 0
          pTerm := 0
          iTerm := 0
          dTerm := 0 } x = 0 := by
    simp only [nextITerm, if_neg hne, zero_mul, add_zero]
    exact limited_zero hlo hhi
  have hD : nextDTerm
      { self with
          outMin := minOutput
          outMax := maxOutput
          samplePeriodMs := samplePeriodMs
          actualKp := kp
          actualKi := 0
          actualKd := 0
          zKp := if self.controllerDir = PID_REVERSE then 0 - kp else kp
          zKi := if self.controllerDir = PID_REVERSE then 0 - 0 * (samplePeriodMs / 1000)
                 else 0 * (samplePeriodMs / 1000)
          zKd := if self.controllerDir = PID_REVERSE then 0 - 0 / (samplePeriodMs / 1000)
                 else 0 / (samplePeriodMs / 1000)
          prevInput := 0
          prevOutput := 0
          pTerm := 0
          iTerm := 0
          dTerm := 0 } x = 0 := by
    simp only [nextDTerm, if_neg hne, zero_div, neg_zero, zero_mul, ite_self]
  refine ⟨?_, ?_, hI, hD⟩
  · show self.setPoint - x = sp - x
    rw [hsp]
  · show nextOutput _ x = _
    rw [nextOutput, rawOutput, hI, hD]
    simp only [hmode, if_neg hne, add_zero, hsp]
    exact limited_eq_clamp hlim.le _

/-- The two end-to-end examples of the specification, each on a prior state that
already stores the set-point of the example (10, then 200). -/
theorem Init_then_Run_proportional_witness :
    ((0 : ℚ) ≤ 1 ∧ (0 : ℚ) < 100 ∧ (-100 : ℚ) < 100 ∧ (-100 : ℚ) ≤ 0 ∧ (0 : ℚ) ≤ 100 ∧
      sampleDirect.setPoint = 10 ∧ sampleDirect.outputMode = DONT_ACCUMULATE_OUTPUT ∧
      sampleDirect.controllerDir = PID_DIRECT) ∧
    ((Run (Init sampleDirect 1 0 0 PID_DIRECT DONT_ACCUMULATE_OUTPUT 100 (-100) 100 10)
        0).error = 10 - 0 ∧
      (Run (Init sampleDirect 1 0 0 PID_DIRECT DONT_ACCUMULATE_OUTPUT 100 (-100) 100 10)
        0).output = clamp (1 * (10 - 0)) (-100) 100 ∧
      (Run (Init sampleDirect 1 0 0 PID_DIRECT DONT_ACCUMULATE_OUTPUT 100 (-100) 100 10)
        0).iTerm = 0 ∧
      (Run (Init sampleDirect 1 0 0 PID_DIRECT DONT_ACCUMULATE_OUTPUT 100 (-100) 100 10)
        0).dTerm = 0) ∧
    (clamp (1 * (10 - 0)) (-100) 100 = (10 : ℚ) ∧
      (Run (Init sampleSetPoint200 1 0 0 PID_DIRECT DONT_ACCUMULATE_OUTPUT 100 (-100) 100 200)
        0).output = clamp (1 * (200 - 0)) (-100) 100 ∧
      clamp (1 * (200 - 0)) (-100) 100 = (100 : ℚ)) :=
  ⟨⟨by norm_num, by norm_num, by norm_num, by norm_num, by norm_num, rfl, rfl, rfl⟩,
   Init_then_Run_proportional sampleDirect 1 100 (-100) 100 10 0 (by norm_num) (by norm_num)
     (by norm_num) (by norm_num) (by norm_num) rfl rfl rfl,
   ⟨by norm_num [clamp],
    (Init_then_Run_proportional sampleSetPoint200 1 100 (-100) 100 200 0 (by norm_num)
      (by norm_num) (by norm_num) (by norm_num) (by norm_num) rfl rfl rfl).2.1,
    by norm_num [clamp]⟩⟩

theorem Run_error (self : PidDbl K) (input : K) :
    (Run self input).error = self.setPoint - input := by
  rw [Run_eq]

/-- C13, the code at the failing input. On a zero-initialised controller object,
`Init(1, 0, 0, PID_DIRECT, DONT_ACCUMULATE_OUTPUT, 100, -100, 100, 10)` leaves the stored
set-point at 0, so `Run(0)` gives `error = 0` and `output = 0`, not 10 and 10. On the
sample controller, which stores the set-point 10, the same `Init` with set-point 200 leaves
the stored set-point at 10, so `Run(0)` gives `error = 10` and `output = 10`, not 200 and
the limit 100. -/
theorem Init_then_Run_uses_stored_setPoint :
    ((Init sampleZero 1 0 0 PID_DIRECT DONT_ACCUMULATE_OUTPUT 100 (-100) 100 10).setPoint = 0 ∧
      (Run (Init sampleZero 1 0 0 PID_DIRECT DONT_ACCUMULATE_OUTPUT 100 (-100) 100 10)
        0).error = 0 ∧
      (Run (Init sampleZero 1 0 0 PID_DIRECT DONT_ACCUMULATE_OUTPUT 100 (-100) 100 10)
        0).output = 0) ∧
    ((Init sampleDirect 1 0 0 PID_DIRECT DONT_ACCUMULATE_OUTPUT 100 (-100) 100 200).setPoint
        = 10 ∧
      (Run (Init sampleDirect 1 0 0 PID_DIRECT DONT_ACCUMULATE_OUTPUT 100 (-100) 100 200)
        0).error = 10 ∧
      (Run (Init sampleDirect 1 0 0 PID_DIRECT DONT_ACCUMULATE_OUTPUT 100 (-100) 100 200)
        0).output = 10) := by
  have hne : PID_DIRECT ≠ PID_REVERSE := by decide
  refine ⟨⟨?_, ?_, ?_⟩, ⟨?_, ?_, ?_⟩⟩
  · rw [Init_setPoint]; rfl
  · rw [Run_error, Init_setPoint]; norm_num [sampleZero]
  · rw [Run_output, Init_valid _ _ _ _ _ _ _ _ _ _ (by norm_num) (by norm_num) (by norm_num)
      (by norm_num)]
    norm_num [nextOutput, rawOutput, nextITerm, nextDTerm, limited, sampleZero, hne]
  · rw [Init_setPoint]; rfl
  · rw [Run_error, Init_setPoint]; norm_num [sampleDirect]
  · rw [Run_output, Init_valid _ _ _ _ _ _ _ _ _ _ (by norm_num) (by norm_num) (by norm_num)
      (by norm_num)]
    norm_num [nextOutput, rawOutput, nextITerm, nextDTerm, limited, sampleDirect, hne]

/-! ## The controller direction -/

/-- C14, the code at the failing input. On the direct sample controller,
`SetControllerDirection(PID_REVERSE)` leaves the stored direction at `PID_DIRECT`, and a
following accepted `SetTunings(2, 3, 4)` stores the scaled proportional gain `2`, not
negated. -/
theorem SetControllerDirection_keeps_stored_direction :
    sampleDirect.controllerDir = PID_DIRECT ∧
    (SetControllerDirection sampleDirect PID_REVERSE).controllerDir = PID_DIRECT ∧
    (SetTunings (SetControllerDirection sampleDirect PID_REVERSE) 2 3 4).zKp = 2 := by
  have hne : PID_DIRECT ≠ PID_REVERSE := by decide
  refine ⟨rfl, ?_, ?_⟩
  · rw [SetControllerDirection_eq]; rfl
  · rw [SetControllerDirection_eq,
      SetTunings_accepted _ _ _ _ (by norm_num) (by norm_num) (by norm_num)]
    norm_num [sampleDirect, hne]

/-- C20. `SetControllerDirection` never inverts the gains: for every state and every
direction argument, equal to the stored direction or not, `zKp`, `zKi` and `zKd` after
the call are those before it; the inversion test, which compares the parameter with
itself, is false. -/
theorem SetControllerDirection_keeps_gains (self : PidDbl K) (d : ctrlDir_t) :
    (SetControllerDirection self d).zKp = self.zKp ∧
    (SetControllerDirection self d).zKi = self.zKi ∧
    (SetControllerDirection self d).zKd = self.zKd ∧
    ¬ (d ≠ d) := by
  rw [SetControllerDirection_eq]
  exact ⟨rfl, rfl, rfl, fun h => h rfl⟩

/-! ## The run counter -/

theorem Run_numTimesRan (self : PidDbl K) (input : K) :
    (Run self input).numTimesRan = (self.numTimesRan + 1) % 2 ^ 32 := by
  rw [Run_eq]

/-- C15, the code at the failing input. With the run counter at `2^32 - 1`, `Run` wraps
it to 0 instead of leaving it at `2^32 - 1`; the next `Run` then finds the counter at 0
and keeps the derivative term 0 although the input moved from 0 to 5 with `zKd = 1`. -/
theorem Run_counter_wraps :
    sampleSaturated.numTimesRan = 2 ^ 32 - 1 ∧
    (Run sampleSaturated 0).numTimesRan = 0 ∧
    (Run sampleSaturated 0).zKd = 1 ∧
    (Run sampleSaturated 0).prevInput = 0 ∧
    (Run (Run sampleSaturated 0) 5).dTerm = 0 := by
  have h0 : (Run sampleSaturated 0).numTimesRan = 0 := by
    rw [Run_numTimesRan]; rfl
  refine ⟨rfl, h0, by rw [Run_eq]; rfl, by rw [Run_eq], ?_⟩
  rw [Run_dTerm, nextDTerm, h0, if_neg (by decide), Run_dTerm]
  norm_num [nextDTerm, sampleSaturated, sampleDirect]

/-! ## The accumulating mode over a sequence of calls -/

theorem limited_of_mem {x lo hi : K} (hlo : lo ≤ x) (hhi : x ≤ hi) : limited x lo hi = x := by
  unfold limited
  rw [if_neg (not_lt.mpr hhi), if_neg (not_lt.mpr hlo)]

theorem Run_outputMode (self : PidDbl K) (input : K) :
    (Run self input).outputMode = self.outputMode := by
  rw [Run_eq]

theorem Run_prevOutput (self : PidDbl K) (input : K) :
    (Run self input).prevOutput = (Run self input).output := by
  rw [Run_eq]

/-- One accumulating call on which no limit fires adds the proportional term, the
accumulated integral term and the derivative term to the previous output. -/
theorem Run_accumulate_step (self : PidDbl K) (input : K)
    (hmode : self.outputMode = ACCUMULATE_OUTPUT) (h : noClampStep self input) :
    (Run self input).output
      = self.prevOutput + (self.zKp * (self.setPoint - input)
          + (self.iTerm + self.zKi * (self.setPoint - input)) + (Run self input).dTerm) := by
  obtain ⟨⟨hi1, hi2⟩, ho1, ho2⟩ := h
  rw [Run_output, Run_dTerm, nextOutput, limited_of_mem ho1 ho2, rawOutput, hmode]
  simp only [nextITerm, limited_of_mem hi1 hi2]
  ring

/-- C16, amended. For an `ACCUMULATE_OUTPUT` controller and a non-empty input sequence on
which neither the `iTerm` limit nor the output limit fires, the output after the last call
is the initial `prevOutput` plus the sum over the calls of `zKp*error_k + iTerm_k + dTerm_k`,
where `iTerm_k = iTerm_(k-1) + zKi*error_k` is the accumulated integral term of call `k`
(not its change). -/
theorem accumulate_output_sum (self : PidDbl K) (inputs : List K)
    (hmode : self.outputMode = ACCUMULATE_OUTPUT) (hne : inputs ≠ [])
    (hnc : noClampSeq self inputs) :
    (RunSeq self inputs).output = self.prevOutput + integralSum self inputs := by
  induction inputs generalizing self with
  | nil => exact absurd rfl hne
  | cons x rest ih =>
    obtain ⟨hstep, hrest⟩ := hnc
    have hout := Run_accumulate_step self x hmode hstep
    cases rest with
    | nil =>
      show (Run self x).output = self.prevOutput + integralSum self [x]
      rw [hout]
      simp only [integralSum, add_zero]
    | cons y ys =>
      have hind := ih (Run self x) (by rw [Run_outputMode]; exact hmode)
        (List.cons_ne_nil y ys) hrest
      show (RunSeq (Run self x) (y :: ys)).output = self.prevOutput + integralSum self (x :: y :: ys)
      rw [hind, Run_prevOutput, hout]
      show _ = self.prevOutput + ((self.zKp * (self.setPoint - x)
        + (self.iTerm + self.zKi * (self.setPoint - x)) + (Run self x).dTerm)
        + integralSum (Run self x) (y :: ys))
      ring

theorem Run_sampleAccumulate :
    Run sampleAccumulate 9 = { sampleAccumulate with
      error := 1, iTerm := 1, inputChange := 9, dTerm := 0, output := 2, prevInput := 9,
      prevOutput := 2, numTimesRan := 2 } := by
  rw [Run_eq]
  norm_num [sampleAccumulate, sampleDirect, nextITerm, nextInputChange, nextDTerm, nextOutput,
    rawOutput, limited]

theorem noClampSeq_sampleAccumulate : noClampSeq sampleAccumulate [9, 9] := by
  simp only [noClampSeq, noClampStep, Run_sampleAccumulate]
  norm_num [sampleAccumulate, sampleDirect, rawOutput, nextITerm, nextDTerm, limited]

/-- C16 as stated fails: on the accumulating sample controller (`zKp = zKi = 1`,
`zKd = 0`, set-point 10, `iTerm = 0`, `prevOutput = 0`, limits `-100 .. 100`) the inputs
`9, 9` fire no limit; the outputs are 2 and then `2 + 1 + 2 + 0 = 5`, while
`prevOutput` plus the sum of `zKp*error_k + zKi*error_k + dTerm_k` is `0 + 2 + 2 = 4`. -/
theorem accumulate_output_is_not_delta_sum :
    sampleAccumulate.outputMode = ACCUMULATE_OUTPUT ∧
    noClampSeq sampleAccumulate [9, 9] ∧
    (RunSeq sampleAccumulate [9, 9]).output = 5 ∧
    sampleAccumulate.prevOutput + deltaSum sampleAccumulate [9, 9] = 4 ∧
    (RunSeq sampleAccumulate [9, 9]).output
      ≠ sampleAccumulate.prevOutput + deltaSum sampleAccumulate [9, 9] := by
  have ho : (RunSeq sampleAccumulate [9, 9]).output = 5 := by
    show (Run (Run sampleAccumulate 9) 9).output = 5
    rw [Run_sampleAccumulate, Run_output]
    norm_num [sampleAccumulate, sampleDirect, nextOutput, rawOutput, nextITerm, nextDTerm,
      limited]
  have hs : sampleAccumulate.prevOutput + deltaSum sampleAccumulate [9, 9] = 4 := by
    simp only [deltaSum, Run_dTerm, Run_sampleAccumulate]
    norm_num [sampleAccumulate, sampleDirect, nextDTerm]
  refine ⟨rfl, noClampSeq_sampleAccumulate, ho, hs, ?_⟩
  rw [ho, hs]; norm_num

/-- Witness of C16, amended, on the same controller and inputs: the output after the
second call is `prevOutput` plus the sum with the accumulated integral terms, which is 5. -/
theorem accumulate_output_sum_witness :
    (sampleAccumulate.outputMode = ACCUMULATE_OUTPUT ∧ ([9, 9] : List ℚ) ≠ [] ∧
      noClampSeq sampleAccumulate [9, 9]) ∧
    (RunSeq sampleAccumulate [9, 9]).output
      = sampleAccumulate.prevOutput + integralSum sampleAccumulate [9, 9] ∧
    sampleAccumulate.prevOutput + integralSum sampleAccumulate [9, 9] = 5 := by
  refine ⟨⟨rfl, List.cons_ne_nil _ _, noClampSeq_sampleAccumulate⟩,
    accumulate_output_sum sampleAccumulate [9, 9] rfl (List.cons_ne_nil _ _)
      noClampSeq_sampleAccumulate, ?_⟩
  simp only [integralSum, Run_dTerm, Run_sampleAccumulate]
  norm_num [sampleAccumulate, sampleDirect, nextDTerm]

/-- C17. `DONT_ACCUMULATE_OUTPUT` ignores the previous output: for two states in that
mode that agree on every field except `prevOutput` and `output`, and every input, `Run`
produces the same `output`, `error`, `iTerm` and `dTerm` in both. -/
theorem dont_accumulate_ignores_previous_output (s1 s2 : PidDbl K) (input : K)
    (h1 : s1.outputMode = DONT_ACCUMULATE_OUTPUT) (h2 : s2.outputMode = DONT_ACCUMULATE_OUTPUT)
    (hagree : { s2 with prevOutput := s1.prevOutput, output := s1.output } = s1) :
    (Run s1 input).output = (Run s2 input).output ∧
    (Run s1 input).error = (Run s2 input).error ∧
    (Run s1 input).iTerm = (Run s2 input).iTerm ∧
    (Run s1 input).dTerm = (Run s2 input).dTerm := by
  have hI : nextITerm s1 input = nextITerm s2 input := by
    rw [← hagree]; rfl
  have hD : nextDTerm s1 input = nextDTerm s2 input := by
    rw [← hagree]; rfl
  have hsp : s1.setPoint = s2.setPoint := by rw [← hagree]
  have hzp : s1.zKp = s2.zKp := by rw [← hagree]
  have hlo : s1.outMin = s2.outMin := by rw [← hagree]
  have hhi : s1.outMax = s2.outMax := by rw [← hagree]
  refine ⟨?_, ?_, ?_, ?_⟩
  · rw [Run_output, Run_output, nextOutput, nextOutput, rawOutput, rawOutput, h1, h2]
    simp only [hI, hD, hsp, hzp, hlo, hhi]
  · rw [Run_eq, Run_eq]
    exact congrArg (fun v => v - input) hsp
  · rw [Run_iTerm, Run_iTerm, hI]
  · rw [Run_dTerm, Run_dTerm, hD]

/-- Witness of C17: the sample controller against a copy with other `prevOutput` and
`output`. -/
theorem dont_accumulate_ignores_previous_output_witness :
    (sampleDirect.outputMode = DONT_ACCUMULATE_OUTPUT ∧
      ({ sampleDirect with prevOutput := 40, output := -7 } : PidDbl ℚ).outputMode
        = DONT_ACCUMULATE_OUTPUT) ∧
    ((Run sampleDirect 4).output
        = (Run ({ sampleDirect with prevOutput := 40, output := -7 } : PidDbl ℚ) 4).output ∧
      (Run sampleDirect 4).error
        = (Run ({ sampleDirect with prevOutput := 40, output := -7 } : PidDbl ℚ) 4).error ∧
      (Run sampleDirect 4).iTerm
        = (Run ({ sampleDirect with prevOutput := 40, output := -7 } : PidDbl ℚ) 4).iTerm ∧
      (Run sampleDirect 4).dTerm
        = (Run ({ sampleDirect with prevOutput := 40, output := -7 } : PidDbl ℚ) 4).dTerm) :=
  ⟨⟨rfl, rfl⟩,
   dont_accumulate_ignores_previous_output sampleDirect
     { sampleDirect with prevOutput := 40, output := -7 } 4 rfl rfl rfl⟩

/-! ## The order of the limits -/

theorem Init_limits (self : PidDbl K) (kp ki kd : K) (controllerDir : ctrlDir_t)
    (outputMode : outputMode_t) (samplePeriodMs minOutput maxOutput setPoint : K) :
    (Init self kp ki kd controllerDir outputMode samplePeriodMs minOutput maxOutput
      setPoint).outMin = (SetOutputLimits self minOutput maxOutput).outMin ∧
    (Init self kp ki kd controllerDir outputMode samplePeriodMs minOutput maxOutput
      setPoint).outMax = (SetOutputLimits self minOutput maxOutput).outMax := by
  rw [Init_eq]
  constructor
  · show (SetTunings _ kp ki kd).outMin = _
    rw [(SetTunings_frame _ kp ki kd).2.2.2.2.1]
  · show (SetTunings _ kp ki kd).outMax = _
    rw [(SetTunings_frame _ kp ki kd).2.2.2.2.2.1]

theorem SetOutputLimits_order (self : PidDbl K) (min max : K)
    (h : self.outMin < self.outMax) :
    (SetOutputLimits self min max).outMin < (SetOutputLimits self min max).outMax := by
  by_cases hrej : min ≥ max
  · rw [SetOutputLimits_rejected self min max hrej]; exact h
  · rw [SetOutputLimits_accepted self min max (not_le.mp hrej)]; exact not_le.mp hrej

/-- C18. Limit-order invariant: if `outMin < outMax` holds in a state, it holds after
`Init`, `Run`, `SetTunings`, `SetOutputLimits` (accepted or rejected),
`SetControllerDirection` and `SetSamplePeriod` with any arguments; and after an accepted
`SetOutputLimits(min, max)`, that is with `min < max`, it holds whatever the prior state. -/
theorem limit_order_invariant (self : PidDbl K) :
    (self.outMin < self.outMax →
      (∀ (kp ki kd : K) (controllerDir : ctrlDir_t) (outputMode : outputMode_t)
          (samplePeriodMs minOutput maxOutput setPoint : K),
        (Init self kp ki kd controllerDir outputMode samplePeriodMs minOutput maxOutput
            setPoint).outMin
          < (Init self kp ki kd controllerDir outputMode samplePeriodMs minOutput maxOutput
            setPoint).outMax) ∧
      (∀ input : K, (Run self input).outMin < (Run self input).outMax) ∧
      (∀ kp ki kd : K, (SetTunings self kp ki kd).outMin < (SetTunings self kp ki kd).outMax) ∧
      (∀ min max : K,
        (SetOutputLimits self min max).outMin < (SetOutputLimits self min max).outMax) ∧
      (∀ d : ctrlDir_t,
        (SetControllerDirection self d).outMin < (SetControllerDirection self d).outMax) ∧
      (∀ n : Nat, (SetSamplePeriod self n).outMin < (SetSamplePeriod self n).outMax)) ∧
    (∀ min max : K, min < max →
      (SetOutputLimits self min max).outMin < (SetOutputLimits self min max).outMax) := by
  constructor
  · intro h
    refine ⟨?_, ?_, ?_, ?_, ?_, ?_⟩
    · intro kp ki kd controllerDir outputMode samplePeriodMs minOutput maxOutput setPoint
      rw [(Init_limits self kp ki kd controllerDir outputMode samplePeriodMs minOutput
        maxOutput setPoint).1, (Init_limits self kp ki kd controllerDir outputMode
        samplePeriodMs minOutput maxOutput setPoint).2]
      exact SetOutputLimits_order self minOutput maxOutput h
    · intro input
      rw [Run_outMin, Run_outMax]; exact h
    · intro kp ki kd
      rw [(SetTunings_frame self kp ki kd).2.2.2.2.1, (SetTunings_frame self kp ki kd).2.2.2.2.2.1]
      exact h
    · intro min max
      exact SetOutputLimits_order self min max h
    · intro d
      rw [SetControllerDirection_eq]; exact h
    · intro n
      rcases Nat.eq_zero_or_pos n with hz | hn
      · rw [hz, SetSamplePeriod_zero]; exact h
      · rw [SetSamplePeriod_pos self n hn]; exact h
  · intro min max hlt
    rw [SetOutputLimits_accepted self min max hlt]
    exact hlt

/-- Witness of C18 on the sample controller: `Init` with the rejected limits `7 .. 7`
keeps the limits `-100 .. 100` in order, and the accepted limits `20 .. 30` are in order. -/
theorem limit_order_invariant_witness :
    (sampleDirect.outMin < sampleDirect.outMax ∧ (20 : ℚ) < 30) ∧
    (Init sampleDirect 1 1 1 PID_REVERSE ACCUMULATE_OUTPUT 100 7 7 0).outMin
      < (Init sampleDirect 1 1 1 PID_REVERSE ACCUMULATE_OUTPUT 100 7 7 0).outMax ∧
    (SetOutputLimits sampleDirect 20 30).outMin < (SetOutputLimits sampleDirect 20 30).outMax :=
  ⟨⟨by norm_num [sampleDirect], by norm_num⟩,
   ((limit_order_invariant sampleDirect).1 (by norm_num [sampleDirect])).1
     1 1 1 PID_REVERSE ACCUMULATE_OUTPUT 100 7 7 0,
   (limit_order_invariant sampleDirect).2 20 30 (by norm_num)⟩

/-! ## The sign of the output -/

theorem limited_nonneg {x lo hi : K} (hlo : lo ≤ 0) (hhi : 0 ≤ hi) (hx : 0 ≤ x) :
    0 ≤ limited x lo hi := by
  unfold limited
  split_ifs with h1 h2
  · exact hhi
  · exact absurd (lt_of_lt_of_le h2 hlo) (not_lt.mpr hx)
  · exact hx

theorem limited_nonpos {x lo hi : K} (hlo : lo ≤ 0) (hhi : 0 ≤ hi) (hx : x ≤ 0) :
    limited x lo hi ≤ 0 := by
  unfold limited
  split_ifs with h1 h2
  · exact absurd (lt_of_le_of_lt hhi h1) (not_lt.mpr hx)
  · exact hlo
  · exact hx

/-- First non-accumulating call from zero terms: the output has the sign shared by the
proportional and the integral contribution. -/
theorem first_output_sign (self : PidDbl K) (input : K)
    (hmode : self.outputMode = DONT_ACCUMULATE_OUTPUT) (hi : self.iTerm = 0)
    (hd : self.dTerm = 0) (hn : self.numTimesRan = 0)
    (hlo : self.outMin ≤ 0) (hhi : 0 ≤ self.outMax) :
    (0 ≤ self.zKp * (self.setPoint - input) → 0 ≤ self.zKi * (self.setPoint - input) →
      0 ≤ (Run self input).output) ∧
    (self.zKp * (self.setPoint - input) ≤ 0 → self.zKi * (self.setPoint - input) ≤ 0 →
      (Run self input).output ≤ 0) := by
  have hD : nextDTerm self input = 0 := by
    rw [nextDTerm, if_neg (by omega), hd]
  rw [Run_output, nextOutput, rawOutput, hmode]
  simp only [hD, add_zero, nextITerm, hi, zero_add]
  constructor
  · intro hp hI
    exact limited_nonneg hlo hhi (add_nonneg hp (limited_nonneg hlo hhi hI))
  · intro hp hI
    exact limited_nonpos hlo hhi (add_nonpos hp (limited_nonpos hlo hhi hI))

/-- C19. Direction sign convention: let the scaled gains come from an accepted
`SetTunings(kp, ki, kd)` with `kp, ki, kd >= 0` and `samplePeriodMs > 0`, and let the
controller be in `DONT_ACCUMULATE_OUTPUT` mode with `iTerm = 0`, `dTerm = 0`,
`numTimesRan = 0` and `outMin <= 0 <= outMax`. For `setPoint > input`, after `Run(input)`
the output is `>= 0` when the stored direction is `PID_DIRECT` and `<= 0` when it is
`PID_REVERSE`; for `setPoint < input` the signs are swapped. -/
theorem direction_sign_convention (self : PidDbl K) (kp ki kd input : K)
    (hkp : 0 ≤ kp) (hki : 0 ≤ ki) (hkd : 0 ≤ kd) (hT : 0 < self.samplePeriodMs)
    (hmode : (SetTunings self kp ki kd).outputMode = DONT_ACCUMULATE_OUTPUT)
    (hi : (SetTunings self kp ki kd).iTerm = 0) (hd : (SetTunings self kp ki kd).dTerm = 0)
    (hn : (SetTunings self kp ki kd).numTimesRan = 0)
    (hlo : (SetTunings self kp ki kd).outMin ≤ 0) (hhi : 0 ≤ (SetTunings self kp ki kd).outMax) :
    ((SetTunings self kp ki kd).setPoint > input →
      ((SetTunings self kp ki kd).controllerDir = PID_DIRECT →
        0 ≤ (Run (SetTunings self kp ki kd) input).output) ∧
      ((SetTunings self kp ki kd).controllerDir = PID_REVERSE →
        (Run (SetTunings self kp ki kd) input).output ≤ 0)) ∧
    ((SetTunings self kp ki kd).setPoint < input →
      ((SetTunings self kp ki kd).controllerDir = PID_DIRECT →
        (Run (SetTunings self kp ki kd) input).output ≤ 0) ∧
      ((SetTunings self kp ki kd).controllerDir = PID_REVERSE →
        0 ≤ (Run (SetTunings self kp ki kd) input).output)) := by
  have hs := SetTunings_accepted self kp ki kd hkp hki hkd
  have hdir : (SetTunings self kp ki kd).controllerDir = self.controllerDir := by rw [hs]
  have hzp : (SetTunings self kp ki kd).zKp
      = if self.controllerDir = PID_REVERSE then 0 - kp else kp := by rw [hs]
  have hzi : (SetTunings self kp ki kd).zKi
      = if self.controllerDir = PID_REVERSE then 0 - ki * (self.samplePeriodMs / 1000)
        else ki * (self.samplePeriodMs / 1000) := by rw [hs]
  have hsec : 0 < self.samplePeriodMs / 1000 := div_pos hT (by norm_num)
  have hkiT : 0 ≤ ki * (self.samplePeriodMs / 1000) := mul_nonneg hki hsec.le
  obtain ⟨hnonneg, hnonpos⟩ :=
    first_output_sign (SetTunings self kp ki kd) input hmode hi hd hn hlo hhi
  rw [hdir]
  rw [hzp, hzi] at hnonneg hnonpos
  have hrev : PID_DIRECT ≠ PID_REVERSE := by decide
  refine ⟨fun hgt => ⟨fun hD => ?_, fun hR => ?_⟩, fun hlt => ⟨fun hD => ?_, fun hR => ?_⟩⟩
  · have he : 0 ≤ (SetTunings self kp ki kd).setPoint - input := (sub_pos.mpr hgt).le
    rw [hD, if_neg hrev, if_neg hrev] at hnonneg
    exact hnonneg (mul_nonneg hkp he) (mul_nonneg hkiT he)
  · have he : 0 ≤ (SetTunings self kp ki kd).setPoint - input := (sub_pos.mpr hgt).le
    rw [hR, if_pos rfl, if_pos rfl] at hnonpos
    have h1 := mul_nonneg hkp he
    have h2 := mul_nonneg hkiT he
    exact hnonpos (by linarith) (by linarith)
  · have he : (SetTunings self kp ki kd).setPoint - input ≤ 0 := (sub_neg.mpr hlt).le
    rw [hD, if_neg hrev, if_neg hrev] at hnonpos
    exact hnonpos (mul_nonpos_iff.mpr (Or.inl ⟨hkp, he⟩))
      (mul_nonpos_iff.mpr (Or.inl ⟨hkiT, he⟩))
  · have he : (SetTunings self kp ki kd).setPoint - input ≤ 0 := (sub_neg.mpr hlt).le
    rw [hR, if_pos rfl, if_pos rfl] at hnonneg
    have h1 := mul_nonpos_iff.mpr (Or.inl ⟨hkp, he⟩)
    have h2 := mul_nonpos_iff.mpr (Or.inl ⟨hkiT, he⟩)
    exact hnonneg (by linarith) (by linarith)

/-- Witness of C19: the reverse sample controller, not yet run, with set-point 10 above the
input 4, gives an output `<= 0` after `SetTunings(2, 3, 4)`. -/
theorem direction_sign_convention_witness :
    ((0 : ℚ) ≤ 2 ∧ (0 : ℚ) ≤ 3 ∧ (0 : ℚ) ≤ 4 ∧
      0 < ({ sampleReverse with numTimesRan := 0 } : PidDbl ℚ).samplePeriodMs ∧
      (SetTunings ({ sampleReverse with numTimesRan := 0 } : PidDbl ℚ) 2 3 4).setPoint > 4 ∧
      (SetTunings ({ sampleReverse with numTimesRan := 0 } : PidDbl ℚ) 2 3 4).controllerDir
        = PID_REVERSE) ∧
    (Run (SetTunings ({ sampleReverse with numTimesRan := 0 } : PidDbl ℚ) 2 3 4) 4).output
      ≤ 0 := by
  have hs := SetTunings_accepted ({ sampleReverse with numTimesRan := 0 } : PidDbl ℚ) 2 3 4
    (by norm_num) (by norm_num) (by norm_num)
  have hsp : (SetTunings ({ sampleReverse with numTimesRan := 0 } : PidDbl ℚ) 2 3 4).setPoint
      > 4 := by
    rw [hs]; norm_num [sampleReverse, sampleDirect]
  have hdir : (SetTunings ({ sampleReverse with numTimesRan := 0 } : PidDbl ℚ)
      2 3 4).controllerDir = PID_REVERSE := by
    rw [hs]; rfl
  exact ⟨⟨by norm_num, by norm_num, by norm_num, by norm_num [sampleReverse, sampleDirect],
      hsp, hdir⟩,
    ((direction_sign_convention ({ sampleReverse with numTimesRan := 0 } : PidDbl ℚ) 2 3 4 4
      (by norm_num) (by norm_num) (by norm_num) (by norm_num [sampleReverse, sampleDirect])
      (by rw [hs]; rfl) (by rw [hs]; rfl) (by rw [hs]; rfl) (by rw [hs])
      (by rw [hs]; norm_num [sampleReverse, sampleDirect])
      (by rw [hs]; norm_num [sampleReverse, sampleDirect])).1 hsp).2 hdir⟩

/-! ## The frame of `Run` -/

/-- C21. `Run` leaves the configuration untouched: for every state and input, the state
after `Run(input)` is the state before it with at most `error`, `iTerm`, `inputChange`,
`dTerm`, `output`, `prevInput`, `prevOutput` and `numTimesRan` replaced; `setPoint`, the
actual gains, the scaled gains, `samplePeriodMs`, `outMin`, `outMax`, `controllerDir`,
`outputMode` and `pTerm` are equal to their values before the call. -/
theorem Run_frame (self : PidDbl K) (input : K) :
    Run self input =
      { self with
        error := (Run self input).error
        iTerm := (Run self input).iTerm
        inputChange := (Run self input).inputChange
        dTerm := (Run self input).dTerm
        output := (Run self input).output
        prevInput := (Run self input).prevInput
        prevOutput := (Run self input).prevOutput
        numTimesRan := (Run self input).numTimesRan } ∧
    (Run self input).setPoint = self.setPoint ∧
    (Run self input).actualKp = self.actualKp ∧
    (Run self input).actualKi = self.actualKi ∧
    (Run self input).actualKd = self.actualKd ∧
    (Run self input).zKp = self.zKp ∧
    (Run self input).zKi = self.zKi ∧
    (Run self input).zKd = self.zKd ∧
    (Run self input).samplePeriodMs = self.samplePeriodMs ∧
    (Run self input).outMin = self.outMin ∧
    (Run self input).outMax = self.outMax ∧
    (Run self input).controllerDir = self.controllerDir ∧
    (Run self input).outputMode = self.outputMode ∧
    (Run self input).pTerm = self.pTerm := by
  rw [Run_eq]
  exact ⟨rfl, rfl, rfl, rfl, rfl, rfl, rfl, rfl, rfl, rfl, rfl, rfl, rfl, rfl⟩

end Pid
